import Mathlib

/-!
Formal model of the `day_trader` backend trading engine.

Each definition is a shallow embedding of the corresponding Python
function from `backend/app/services/...`; machine floats are modelled as
rationals, `int(x)` truncation as `pyInt`, database sessions as explicit
state records, and exceptions as `Except` results (a raised exception
rolls the session back, so the pre-call state is the state observed by
the caller).
-/

namespace DayTrader

/-- Python `int(x)` conversion: truncation toward zero. -/
def pyInt (q : ℚ) : ℤ := if q < 0 then -⌊-q⌋ else ⌊q⌋

/-! ## PositionSizer (`app/services/risk/position_sizer.py`) -/

/-- Result dictionary of `PositionSizer.calculate_position_size`. -/
structure SizeResult where
  quantity : ℤ
  positionValue : ℚ
  riskAmount : ℚ
  riskPercent : ℚ
  positionPercent : ℚ
  capped : Bool
  capReason : Option String
  entryPrice : ℚ
  stopLoss : ℚ
  portfolioValue : ℚ
  deriving Repr, DecidableEq

/-- `PositionSizer.RISK_PERCENT` -/
def RISK_PERCENT : ℚ := 2 / 100

/-- `PositionSizer.MAX_POSITION_PERCENT` -/
def MAX_POSITION_PERCENT : ℚ := 20 / 100

/-- `PositionSizer.calculate_position_size(entry_price, stop_loss, portfolio_value)`.
The `portfolio_value` argument is taken explicitly (the Python fallback
fetches it from the broker when absent). -/
def calculatePositionSize (entry_price stop_loss portfolio_value : ℚ) :
    Except String SizeResult :=
  if entry_price ≤ 0 then .error "Invalid entry price"
  else if stop_loss ≤ 0 then .error "Invalid stop loss"
  else if entry_price ≤ stop_loss then
    .error "Stop loss must be below entry price"
  else
    let risk_per_share := entry_price - stop_loss
    let risk_amount := portfolio_value * RISK_PERCENT
    let quantity0 := pyInt (risk_amount / risk_per_share)
    let max_position_value := portfolio_value * MAX_POSITION_PERCENT
    let max_quantity_by_value := pyInt (max_position_value / entry_price)
    let capped := decide (max_quantity_by_value < quantity0)
    let cap_reason : Option String :=
      if max_quantity_by_value < quantity0 then some "MAX_POSITION_SIZE" else none
    let quantity1 :=
      if max_quantity_by_value < quantity0 then max_quantity_by_value else quantity0
    let quantity := if quantity1 < 1 then 1 else quantity1
    let position_value := (quantity : ℚ) * entry_price
    let actual_risk_amount := (quantity : ℚ) * risk_per_share
    let actual_risk_percent := actual_risk_amount / portfolio_value * 100
    let position_percent := position_value / portfolio_value * 100
    .ok {
      quantity := quantity
      positionValue := position_value
      riskAmount := actual_risk_amount
      riskPercent := actual_risk_percent
      positionPercent := position_percent
      capped := capped
      capReason := cap_reason
      entryPrice := entry_price
      stopLoss := stop_loss
      portfolioValue := portfolio_value }

/-- The intermediate share quantity right after the 20%-cap step and
before the 1-share floor (`quantity` at line 160 of the source). -/
def preFloorQuantity (entry_price stop_loss portfolio_value : ℚ) : ℤ :=
  let risk_per_share := entry_price - stop_loss
  let quantity0 := pyInt (portfolio_value * RISK_PERCENT / risk_per_share)
  let max_quantity_by_value := pyInt (portfolio_value * MAX_POSITION_PERCENT / entry_price)
  if max_quantity_by_value < quantity0 then max_quantity_by_value else quantity0

/-- The raw 2%-rule quantity before the cap (`quantity` at line 146). -/
def rawQuantity (entry_price stop_loss portfolio_value : ℚ) : ℤ :=
  pyInt (portfolio_value * RISK_PERCENT / (entry_price - stop_loss))

/-- Extract the payload of a successful sizing run (default record on error). -/
def sizeOrDefault (r : Except String SizeResult) : SizeResult :=
  match r with
  | .ok v => v
  | .error _ => ⟨0, 0, 0, 0, 0, false, none, 0, 0, 0⟩

/-- `max_quantity_by_value` at line 151 of the source. -/
def maxQuantityByValue (entry_price portfolio_value : ℚ) : ℤ :=
  pyInt (portfolio_value * MAX_POSITION_PERCENT / entry_price)

/-- The final share quantity after the 1-share floor (line 168). -/
def finalQuantity (entry_price stop_loss portfolio_value : ℚ) : ℤ :=
  let q1 := preFloorQuantity entry_price stop_loss portfolio_value
  if q1 < 1 then 1 else q1

lemma pyInt_cast_le (q : ℚ) (h : 0 ≤ q) : (pyInt q : ℚ) ≤ q := by
  unfold pyInt
  rw [if_neg (not_lt.mpr h)]
  exact Int.floor_le q

/-- On valid inputs the sizing run succeeds and every field of the result
is determined by the helper quantities. -/
lemma calculatePositionSize_eq (e s p : ℚ) (he : 0 < e) (hs : 0 < s) (hse : s < e) :
    calculatePositionSize e s p = .ok {
      quantity := finalQuantity e s p
      positionValue := (finalQuantity e s p : ℚ) * e
      riskAmount := (finalQuantity e s p : ℚ) * (e - s)
      riskPercent := (finalQuantity e s p : ℚ) * (e - s) / p * 100
      positionPercent := (finalQuantity e s p : ℚ) * e / p * 100
      capped := decide (maxQuantityByValue e p < rawQuantity e s p)
      capReason :=
        if maxQuantityByValue e p < rawQuantity e s p then some "MAX_POSITION_SIZE" else none
      entryPrice := e
      stopLoss := s
      portfolioValue := p } := by
  unfold calculatePositionSize
  rw [if_neg (not_le.mpr he), if_neg (not_le.mpr hs), if_neg (not_le.mpr hse)]
  rfl

lemma preFloor_le_raw (e s p : ℚ) : preFloorQuantity e s p ≤ rawQuantity e s p := by
  unfold preFloorQuantity rawQuantity
  dsimp only
  split <;> omega

lemma preFloor_le_maxQuantity (e s p : ℚ) :
    preFloorQuantity e s p ≤ maxQuantityByValue e p := by
  unfold preFloorQuantity maxQuantityByValue
  dsimp only
  split <;> omega

/-- C1 (counterexample): the claim fails as stated because of the 1-share
floor.  At `entry=3000, stop=2999, portfolio=10000` the 20%-cap clamps the
quantity to 0, the floor raises it back to 1, and the returned position
value 3000 exceeds `0.20 × 10000 = 2000`.  At `entry=100, stop=1,
portfolio=1000` the raw quantity is 0 (no capping), the floor raises it to
1, and the returned risk amount 99 exceeds `0.02 × 1000 = 20` although
`capped = false`. -/
theorem claim_C1_counterexample :
    MAX_POSITION_PERCENT * 10000 <
      (sizeOrDefault (calculatePositionSize 3000 2999 10000)).positionValue ∧
    (sizeOrDefault (calculatePositionSize 100 1 1000)).capped = false ∧
    RISK_PERCENT * 1000 < (sizeOrDefault (calculatePositionSize 100 1 1000)).riskAmount := by
  refine ⟨?_, ?_, ?_⟩ <;>
    norm_num [sizeOrDefault, calculatePositionSize, pyInt, RISK_PERCENT, MAX_POSITION_PERCENT]

/-- C1 (amended): for every valid input (`entry_price > 0`, `stop_loss > 0`,
`stop_loss < entry_price`, `portfolio_value > 0`) such that the quantity
left after the 20%-cap step is at least 1 — i.e. the 1-share floor does not
fire — the returned position value never exceeds `0.20 × portfolio_value`,
the returned risk amount never exceeds `0.02 × portfolio_value` (capped or
not), and the 20%-cap step only ever reduces the quantity, never increases
it (the last part holds unconditionally). -/
theorem claim_C1 (e s p : ℚ) (he : 0 < e) (hs : 0 < s) (hse : s < e) (hp : 0 < p)
    (hq : 1 ≤ preFloorQuantity e s p) :
    (sizeOrDefault (calculatePositionSize e s p)).positionValue ≤ MAX_POSITION_PERCENT * p ∧
    (sizeOrDefault (calculatePositionSize e s p)).riskAmount ≤ RISK_PERCENT * p ∧
    preFloorQuantity e s p ≤ rawQuantity e s p := by
  rw [calculatePositionSize_eq e s p he hs hse]
  have hfq : finalQuantity e s p = preFloorQuantity e s p := by
    unfold finalQuantity
    exact if_neg (not_lt.mpr hq)
  have hrps : (0:ℚ) < e - s := by linarith
  refine ⟨?_, ?_, preFloor_le_raw e s p⟩
  · show (finalQuantity e s p : ℚ) * e ≤ MAX_POSITION_PERCENT * p
    have h1 : (finalQuantity e s p : ℚ) ≤ (maxQuantityByValue e p : ℚ) := by
      exact_mod_cast hfq ▸ preFloor_le_maxQuantity e s p
    have h2 : (maxQuantityByValue e p : ℚ) ≤ p * MAX_POSITION_PERCENT / e := by
      apply pyInt_cast_le
      apply div_nonneg _ he.le
      apply mul_nonneg hp.le
      norm_num [MAX_POSITION_PERCENT]
    calc (finalQuantity e s p : ℚ) * e
        ≤ p * MAX_POSITION_PERCENT / e * e := by
          apply mul_le_mul_of_nonneg_right (le_trans h1 h2) he.le
      _ = MAX_POSITION_PERCENT * p := by
          field_simp
          ring
  · show (finalQuantity e s p : ℚ) * (e - s) ≤ RISK_PERCENT * p
    have h1 : (finalQuantity e s p : ℚ) ≤ (rawQuantity e s p : ℚ) := by
      exact_mod_cast hfq ▸ preFloor_le_raw e s p
    have h2 : (rawQuantity e s p : ℚ) ≤ p * RISK_PERCENT / (e - s) := by
      apply pyInt_cast_le
      apply div_nonneg _ hrps.le
      apply mul_nonneg hp.le
      norm_num [RISK_PERCENT]
    calc (finalQuantity e s p : ℚ) * (e - s)
        ≤ p * RISK_PERCENT / (e - s) * (e - s) := by
          apply mul_le_mul_of_nonneg_right (le_trans h1 h2) hrps.le
      _ = RISK_PERCENT * p := by
          field_simp
          ring

/-- C1 witness: the amended theorem applied at
`entry=100, stop=95, portfolio=10000`, where the floor does not fire. -/
theorem claim_C1_witness :
    1 ≤ preFloorQuantity 100 95 10000 ∧
    ((sizeOrDefault (calculatePositionSize 100 95 10000)).positionValue ≤
        MAX_POSITION_PERCENT * 10000 ∧
      (sizeOrDefault (calculatePositionSize 100 95 10000)).riskAmount ≤ RISK_PERCENT * 10000 ∧
      preFloorQuantity 100 95 10000 ≤ rawQuantity 100 95 10000) :=
  ⟨by norm_num [preFloorQuantity, pyInt, RISK_PERCENT, MAX_POSITION_PERCENT],
    claim_C1 100 95 10000 (by norm_num) (by norm_num) (by norm_num) (by norm_num)
      (by norm_num [preFloorQuantity, pyInt, RISK_PERCENT, MAX_POSITION_PERCENT])⟩

/-- C8: on every valid sizing run the reported `position_value`,
`risk_amount`, `risk_percent` and `position_percent` are recomputed from
the final (possibly capped) quantity, and the end-to-end example
`portfolio=10000, entry=100, stop=95` yields quantity 20, position value
2000, position percent 20, `capped = true`, `cap_reason = MAX_POSITION_SIZE`. -/
theorem claim_C8 :
    (∀ e s p : ℚ, 0 < e → 0 < s → s < e →
      (sizeOrDefault (calculatePositionSize e s p)).positionValue =
          ((sizeOrDefault (calculatePositionSize e s p)).quantity : ℚ) * e ∧
        (sizeOrDefault (calculatePositionSize e s p)).riskAmount =
          ((sizeOrDefault (calculatePositionSize e s p)).quantity : ℚ) * (e - s) ∧
        (sizeOrDefault (calculatePositionSize e s p)).riskPercent =
          (sizeOrDefault (calculatePositionSize e s p)).riskAmount / p * 100 ∧
        (sizeOrDefault (calculatePositionSize e s p)).positionPercent =
          (sizeOrDefault (calculatePositionSize e s p)).positionValue / p * 100) ∧
    (sizeOrDefault (calculatePositionSize 100 95 10000)).quantity = 20 ∧
    (sizeOrDefault (calculatePositionSize 100 95 10000)).positionValue = 2000 ∧
    (sizeOrDefault (calculatePositionSize 100 95 10000)).positionPercent = 20 ∧
    (sizeOrDefault (calculatePositionSize 100 95 10000)).capped = true ∧
    (sizeOrDefault (calculatePositionSize 100 95 10000)).capReason = some "MAX_POSITION_SIZE" := by
  constructor
  · intro e s p he hs hse
    rw [calculatePositionSize_eq e s p he hs hse]
    exact ⟨rfl, rfl, rfl, rfl⟩
  · refine ⟨?_, ?_, ?_, ?_, ?_⟩ <;>
      norm_num [sizeOrDefault, calculatePositionSize, pyInt, RISK_PERCENT, MAX_POSITION_PERCENT]

/-- C8 witness: the recomputation property applied at
`entry=100, stop=95, portfolio=10000`. -/
theorem claim_C8_witness :
    (0:ℚ) < 100 ∧ (0:ℚ) < 95 ∧ (95:ℚ) < 100 ∧
    ((sizeOrDefault (calculatePositionSize 100 95 10000)).positionValue =
        ((sizeOrDefault (calculatePositionSize 100 95 10000)).quantity : ℚ) * 100 ∧
      (sizeOrDefault (calculatePositionSize 100 95 10000)).riskAmount =
        ((sizeOrDefault (calculatePositionSize 100 95 10000)).quantity : ℚ) * (100 - 95) ∧
      (sizeOrDefault (calculatePositionSize 100 95 10000)).riskPercent =
        (sizeOrDefault (calculatePositionSize 100 95 10000)).riskAmount / 10000 * 100 ∧
      (sizeOrDefault (calculatePositionSize 100 95 10000)).positionPercent =
        (sizeOrDefault (calculatePositionSize 100 95 10000)).positionValue / 10000 * 100) :=
  ⟨by norm_num, by norm_num, by norm_num,
    claim_C8.1 100 95 10000 (by norm_num) (by norm_num) (by norm_num)⟩

/-! ## Data model (`app/models/strategy.py`, `app/models/trade.py`, `app/models/stock.py`) -/

/-- `Strategy` row: the fields read or written by the risk services. -/
structure Strategy where
  id : ℕ
  name : String
  status : String
  consecutiveLossesToday : ℤ
  deriving Repr, DecidableEq

/-- `Trade` row: the fields read or written by the services modelled here. -/
structure TradeRec where
  id : ℕ
  strategyId : ℕ
  stockId : ℕ
  status : String
  profitLoss : Option ℚ
  entryPrice : ℚ
  quantity : ℤ
  exitPrice : Option ℚ
  exitTime : Option ℕ
  recovered : Bool
  deriving Repr, DecidableEq

/-- `Stock` row. -/
structure Stock where
  id : ℕ
  symbol : String
  deriving Repr, DecidableEq

/-! ## LossLimitDetector (`app/services/risk/loss_limit_detector.py`) -/

/-- The database state visible to `LossLimitDetector`. -/
structure LossDB where
  strategies : List Strategy
  trades : List TradeRec
  deriving Repr, DecidableEq

/-- `db.query(Trade).filter(Trade.id == trade_id).first()` -/
def findTrade (db : LossDB) (tradeId : ℕ) : Option TradeRec :=
  db.trades.find? (fun t => t.id == tradeId)

/-- `db.query(Strategy).filter(Strategy.id == strategy_id).first()` -/
def findStrategy (db : LossDB) (strategyId : ℕ) : Option Strategy :=
  db.strategies.find? (fun s => s.id == strategyId)

/-- Mutating the ORM object returned by `.first()`: replace the first row
whose id matches. -/
def updateFirstStrategy (l : List Strategy) (strategyId : ℕ) (f : Strategy → Strategy) :
    List Strategy :=
  match l with
  | [] => []
  | s :: rest =>
      if s.id == strategyId then f s :: rest
      else s :: updateFirstStrategy rest strategyId f

/-- `LossLimitDetector.MAX_CONSECUTIVE_LOSSES` -/
def MAX_CONSECUTIVE_LOSSES : ℤ := 3

/-- `LossLimitDetector.check_loss_limit` -/
def checkLossLimit (db : LossDB) (strategyId : ℕ) : Except String Bool :=
  match findStrategy db strategyId with
  | none => .error ("Strategy not found: " ++ toString strategyId)
  | some strategy => .ok (MAX_CONSECUTIVE_LOSSES ≤ strategy.consecutiveLossesToday)

/-- `LossLimitDetector.pause_strategy_on_limit` (the alert is a log line). -/
def pauseStrategyOnLimit (db : LossDB) (strategyId : ℕ) : Except String LossDB :=
  match findStrategy db strategyId with
  | none => .error ("Strategy not found: " ++ toString strategyId)
  | some _ =>
      .ok { db with
        strategies :=
          updateFirstStrategy db.strategies strategyId
            (fun s => { s with status := "paused" }) }

/-- `LossLimitDetector.track_trade_outcome`.  A raised exception rolls the
session back, so `.error` leaves the caller observing the pre-call state. -/
def trackTradeOutcome (db : LossDB) (tradeId : ℕ) : Except String LossDB :=
  match findTrade db tradeId with
  | none => .error ("Trade not found: " ++ toString tradeId)
  | some trade =>
      if trade.status ≠ "CLOSED" then .ok db
      else
        match trade.profitLoss with
        | none => .ok db
        | some pl =>
            match findStrategy db trade.strategyId with
            | none => .error ("Strategy not found: " ++ toString trade.strategyId)
            | some strategy =>
                if pl < 0 then
                  let db1 : LossDB := { db with
                    strategies :=
                      updateFirstStrategy db.strategies strategy.id
                        (fun s =>
                          { s with consecutiveLossesToday := s.consecutiveLossesToday + 1 }) }
                  match checkLossLimit db1 strategy.id with
                  | .error e => .error e
                  | .ok true => pauseStrategyOnLimit db1 strategy.id
                  | .ok false => .ok db1
                else
                  .ok { db with
                    strategies :=
                      updateFirstStrategy db.strategies strategy.id
                        (fun s => { s with consecutiveLossesToday := 0 }) }

/-- Sequential processing of several trade outcomes. -/
def trackMany (db : LossDB) (tradeIds : List ℕ) : Except String LossDB :=
  match tradeIds with
  | [] => .ok db
  | tid :: rest => (trackTradeOutcome db tid).bind (fun d => trackMany d rest)

/-- The strategy row observed after processing a list of trade outcomes. -/
def strategyAfterTrades (db : LossDB) (tradeIds : List ℕ) (strategyId : ℕ) : Option Strategy :=
  match trackMany db tradeIds with
  | .ok d => findStrategy d strategyId
  | .error _ => none

/-- The §3 invariant as an executable predicate: every strategy with three
or more consecutive losses today is paused. -/
def lossInvariant (db : LossDB) : Bool :=
  db.strategies.all (fun s =>
    decide (s.consecutiveLossesToday < MAX_CONSECUTIVE_LOSSES) || s.status == "paused")

lemma findStrategy_id {db : LossDB} {sid : ℕ} {st : Strategy}
    (h : findStrategy db sid = some st) : st.id = sid := by
  have := List.find?_some h
  simpa using this

lemma updateFirstStrategy_cons_pos {a : Strategy} {sid : ℕ} (rest : List Strategy)
    (f : Strategy → Strategy) (ha : a.id = sid) :
    updateFirstStrategy (a :: rest) sid f = f a :: rest := by
  simp only [updateFirstStrategy]
  rw [if_pos (by simpa using ha)]

lemma updateFirstStrategy_cons_neg {a : Strategy} {sid : ℕ} (rest : List Strategy)
    (f : Strategy → Strategy) (ha : ¬a.id = sid) :
    updateFirstStrategy (a :: rest) sid f = a :: updateFirstStrategy rest sid f := by
  simp only [updateFirstStrategy]
  rw [if_neg (by simpa using ha)]

lemma find?_updateFirstStrategy (l : List Strategy) (sid : ℕ) (f : Strategy → Strategy)
    (st : Strategy) (h : l.find? (fun s => s.id == sid) = some st)
    (hid : (f st).id = sid) :
    (updateFirstStrategy l sid f).find? (fun s => s.id == sid) = some (f st) := by
  induction l with
  | nil => simp [List.find?] at h
  | cons a rest ih =>
      by_cases ha : a.id = sid
      · have hst : st = a := by
          rw [List.find?_cons_of_pos _ (by simpa using ha)] at h
          exact (Option.some_inj.mp h).symm
        subst hst
        rw [updateFirstStrategy_cons_pos rest f ha]
        exact List.find?_cons_of_pos _ (by simpa using hid)
      · rw [List.find?_cons_of_neg _ (by simpa using ha)] at h
        rw [updateFirstStrategy_cons_neg rest f ha]
        rw [List.find?_cons_of_neg _ (by simpa using ha)]
        exact ih h

lemma updateFirstStrategy_twice (l : List Strategy) (sid : ℕ) (f g : Strategy → Strategy)
    (hf : ∀ s, s.id = sid → (f s).id = sid) :
    updateFirstStrategy (updateFirstStrategy l sid f) sid g =
      updateFirstStrategy l sid (fun s => g (f s)) := by
  induction l with
  | nil => rfl
  | cons a rest ih =>
      by_cases ha : a.id = sid
      · rw [updateFirstStrategy_cons_pos rest f ha,
          updateFirstStrategy_cons_pos rest g (hf a ha),
          updateFirstStrategy_cons_pos rest _ ha]
      · rw [updateFirstStrategy_cons_neg rest f ha,
          updateFirstStrategy_cons_neg (updateFirstStrategy rest sid f) g ha,
          updateFirstStrategy_cons_neg rest _ ha, ih]

lemma mem_updateFirstStrategy {l : List Strategy} {sid : ℕ} {f : Strategy → Strategy}
    {x : Strategy} (hx : x ∈ updateFirstStrategy l sid f) :
    x ∈ l ∨ ∃ s, s ∈ l ∧ x = f s := by
  induction l with
  | nil => simp [updateFirstStrategy] at hx
  | cons a rest ih =>
      by_cases ha : a.id = sid
      · rw [updateFirstStrategy_cons_pos rest f ha] at hx
        rcases List.mem_cons.mp hx with h | h
        · exact Or.inr ⟨a, List.mem_cons_self a rest, h⟩
        · exact Or.inl (List.mem_cons_of_mem a h)
      · rw [updateFirstStrategy_cons_neg rest f ha] at hx
        rcases List.mem_cons.mp hx with h | h
        · exact Or.inl (h ▸ List.mem_cons_self a rest)
        · rcases ih h with h1 | ⟨s, hs, hxs⟩
          · exact Or.inl (List.mem_cons_of_mem a h1)
          · exact Or.inr ⟨s, List.mem_cons_of_mem a hs, hxs⟩

/-- The strategy record produced by the losing-trade branch of
`track_trade_outcome`: counter incremented, then paused if the limit is hit. -/
def lossUpdatedStrategy (st : Strategy) : Strategy :=
  let u := { st with consecutiveLossesToday := st.consecutiveLossesToday + 1 }
  if MAX_CONSECUTIVE_LOSSES ≤ u.consecutiveLossesToday then { u with status := "paused" }
  else u

lemma updateFirstStrategy_congr (l : List Strategy) (sid : ℕ) (f g : Strategy → Strategy)
    (st : Strategy) (h : l.find? (fun s => s.id == sid) = some st) (hfg : f st = g st) :
    updateFirstStrategy l sid f = updateFirstStrategy l sid g := by
  induction l with
  | nil => rfl
  | cons a rest ih =>
      by_cases ha : a.id = sid
      · have hst : st = a := by
          rw [List.find?_cons_of_pos _ (by simpa using ha)] at h
          exact (Option.some_inj.mp h).symm
        subst hst
        unfold updateFirstStrategy
        rw [if_pos (by simpa using ha), if_pos (by simpa using ha), hfg]
      · rw [List.find?_cons_of_neg _ (by simpa using ha)] at h
        unfold updateFirstStrategy
        rw [if_neg (by simpa using ha), if_neg (by simpa using ha), ih h]

/-- One losing-trade call: the tracked strategy's counter is incremented and
the strategy is paused exactly when the incremented counter reaches the limit. -/
lemma trackTradeOutcome_loss (db : LossDB) (t : TradeRec) (st : Strategy) (pl : ℚ)
    (ht : findTrade db t.id = some t) (hcl : t.status = "CLOSED")
    (hpl : t.profitLoss = some pl) (hneg : pl < 0)
    (hst : findStrategy db t.strategyId = some st) :
    trackTradeOutcome db t.id = .ok { db with
      strategies :=
        updateFirstStrategy db.strategies st.id (fun _ => lossUpdatedStrategy st) } := by
  have hsid : st.id = t.strategyId := findStrategy_id hst
  have hst2 : db.strategies.find? (fun s => s.id == st.id) = some st := by
    rw [hsid]
    exact hst
  have hfind1 :
      (updateFirstStrategy db.strategies st.id
          (fun s => { s with consecutiveLossesToday := s.consecutiveLossesToday + 1 })).find?
        (fun s => s.id == st.id) =
        some { st with consecutiveLossesToday := st.consecutiveLossesToday + 1 } :=
    find?_updateFirstStrategy db.strategies st.id _ st hst2 rfl
  simp only [trackTradeOutcome, ht, hcl, hpl, hst]
  rw [if_neg (by simp), if_pos hneg]
  simp only [checkLossLimit, findStrategy, hfind1]
  by_cases h3 : MAX_CONSECUTIVE_LOSSES ≤ st.consecutiveLossesToday + 1
  · simp only [decide_eq_true h3]
    simp only [pauseStrategyOnLimit, findStrategy, hfind1]
    rw [updateFirstStrategy_twice db.strategies st.id
      (fun s => { s with consecutiveLossesToday := s.consecutiveLossesToday + 1 })
      (fun s => { s with status := "paused" }) (fun s hs => hs)]
    rw [updateFirstStrategy_congr db.strategies st.id _
      (fun _ => lossUpdatedStrategy st) st hst2 (by simp [lossUpdatedStrategy, h3])]
  · simp only [decide_eq_false h3]
    rw [updateFirstStrategy_congr db.strategies st.id _
      (fun _ => lossUpdatedStrategy st) st hst2 (by simp [lossUpdatedStrategy, h3])]

lemma findTrade_id {db : LossDB} {tid : ℕ} {t : TradeRec}
    (h : findTrade db tid = some t) : t.id = tid := by
  have := List.find?_some h
  simpa using this

lemma lossUpdatedStrategy_id (st : Strategy) : (lossUpdatedStrategy st).id = st.id := by
  simp only [lossUpdatedStrategy]
  split <;> rfl

lemma mem_updateFirstStrategy_find {l : List Strategy} {sid : ℕ} {f : Strategy → Strategy}
    {x st : Strategy} (hfind : l.find? (fun s => s.id == sid) = some st)
    (hx : x ∈ updateFirstStrategy l sid f) : x ∈ l ∨ x = f st := by
  induction l with
  | nil => simp [updateFirstStrategy] at hx
  | cons a rest ih =>
      by_cases ha : a.id = sid
      · have hst : st = a := by
          rw [List.find?_cons_of_pos _ (by simpa using ha)] at hfind
          exact (Option.some_inj.mp hfind).symm
        subst hst
        rw [updateFirstStrategy_cons_pos rest f ha] at hx
        rcases List.mem_cons.mp hx with h | h
        · exact Or.inr h
        · exact Or.inl (List.mem_cons_of_mem st h)
      · rw [List.find?_cons_of_neg _ (by simpa using ha)] at hfind
        rw [updateFirstStrategy_cons_neg rest f ha] at hx
        rcases List.mem_cons.mp hx with h | h
        · exact Or.inl (h ▸ List.mem_cons_self a rest)
        · rcases ih hfind h with h1 | h1
          · exact Or.inl (List.mem_cons_of_mem a h1)
          · exact Or.inr h1

/-- One winning-trade call: the tracked strategy's counter is reset to 0 and
nothing else (in particular the status) changes. -/
lemma trackTradeOutcome_win (db : LossDB) (t : TradeRec) (st : Strategy) (pl : ℚ)
    (ht : findTrade db t.id = some t) (hcl : t.status = "CLOSED")
    (hpl : t.profitLoss = some pl) (hpos : ¬pl < 0)
    (hst : findStrategy db t.strategyId = some st) :
    trackTradeOutcome db t.id = .ok { db with
      strategies :=
        updateFirstStrategy db.strategies st.id
          (fun _ => { st with consecutiveLossesToday := 0 }) } := by
  have hsid : st.id = t.strategyId := findStrategy_id hst
  have hst2 : db.strategies.find? (fun s => s.id == st.id) = some st := by
    rw [hsid]
    exact hst
  simp only [trackTradeOutcome, ht, hcl, hpl, hst]
  rw [if_neg (by simp), if_neg hpos]
  rw [updateFirstStrategy_congr db.strategies st.id _
    (fun _ => { st with consecutiveLossesToday := 0 }) st hst2 rfl]

lemma lossInvariant_iff (db : LossDB) :
    lossInvariant db = true ↔
      ∀ s ∈ db.strategies, MAX_CONSECUTIVE_LOSSES ≤ s.consecutiveLossesToday →
        s.status = "paused" := by
  simp only [lossInvariant, List.all_eq_true, Bool.or_eq_true, decide_eq_true_eq, beq_iff_eq]
  constructor
  · intro h s hs h3
    rcases h s hs with h1 | h1
    · exact absurd h3 (not_le.mpr h1)
    · exact h1
  · intro h s hs
    by_cases h1 : s.consecutiveLossesToday < MAX_CONSECUTIVE_LOSSES
    · exact Or.inl h1
    · exact Or.inr (h s hs (not_lt.mp h1))

/-- Every successful `track_trade_outcome` call preserves the §3 pause
invariant. -/
lemma trackOutcome_preserves_inv (db : LossDB) (tid : ℕ) (db2 : LossDB)
    (h : trackTradeOutcome db tid = .ok db2)
    (hinv : ∀ s ∈ db.strategies,
      MAX_CONSECUTIVE_LOSSES ≤ s.consecutiveLossesToday → s.status = "paused") :
    ∀ s ∈ db2.strategies,
      MAX_CONSECUTIVE_LOSSES ≤ s.consecutiveLossesToday → s.status = "paused" := by
  rcases hfd : findTrade db tid with _ | t
  · simp only [trackTradeOutcome, hfd] at h
    exact Except.noConfusion h
  · have htid : t.id = tid := findTrade_id hfd
    subst htid
    by_cases hcl : t.status = "CLOSED"
    · rcases hpl : t.profitLoss with _ | pl
      · simp only [trackTradeOutcome, hfd, hcl, hpl] at h
        rw [if_neg (by simp)] at h
        injection h with h2
        subst h2
        exact hinv
      · rcases hst : findStrategy db t.strategyId with _ | st
        · simp only [trackTradeOutcome, hfd, hcl, hpl, hst] at h
          rw [if_neg (by simp)] at h
          exact Except.noConfusion h
        · have hst2 : db.strategies.find? (fun s => s.id == st.id) = some st := by
            rw [findStrategy_id hst]
            exact hst
          by_cases hneg : pl < 0
          · rw [trackTradeOutcome_loss db t st pl hfd hcl hpl hneg hst] at h
            injection h with h2
            subst h2
            intro x hx h3
            rcases mem_updateFirstStrategy_find hst2 hx with hmem | hxe
            · exact hinv x hmem h3
            · subst hxe
              by_cases hq : MAX_CONSECUTIVE_LOSSES ≤ st.consecutiveLossesToday + 1
              · simp [lossUpdatedStrategy, hq]
              · exfalso
                simp [lossUpdatedStrategy, hq] at h3
          · rw [trackTradeOutcome_win db t st pl hfd hcl hpl hneg hst] at h
            injection h with h2
            subst h2
            intro x hx h3
            rcases mem_updateFirstStrategy_find hst2 hx with hmem | hxe
            · exact hinv x hmem h3
            · exfalso
              rw [hxe] at h3
              norm_num [MAX_CONSECUTIVE_LOSSES] at h3
    · simp only [trackTradeOutcome, hfd] at h
      rw [if_pos (by simpa using hcl)] at h
      injection h with h2
      subst h2
      exact hinv

/-- C2: (1) three consecutive closed losing trades drive the strategy's
`consecutive_losses_today` to 3 and its status to `paused`; (2) a
subsequent closed non-negative-P&L trade resets the counter to 0 without
altering the `paused` status; (3) every successful `track_trade_outcome`
call preserves the invariant that a strategy with three or more
consecutive losses today is paused. -/
theorem claim_C2 :
    (∀ (db : LossDB) (sid : ℕ) (st : Strategy) (t1 t2 t3 : TradeRec) (p1 p2 p3 : ℚ),
      findStrategy db sid = some st → st.consecutiveLossesToday = 0 →
      findTrade db t1.id = some t1 → t1.strategyId = sid → t1.status = "CLOSED" →
        t1.profitLoss = some p1 → p1 < 0 →
      findTrade db t2.id = some t2 → t2.strategyId = sid → t2.status = "CLOSED" →
        t2.profitLoss = some p2 → p2 < 0 →
      findTrade db t3.id = some t3 → t3.strategyId = sid → t3.status = "CLOSED" →
        t3.profitLoss = some p3 → p3 < 0 →
      strategyAfterTrades db [t1.id, t2.id, t3.id] sid =
        some { st with status := "paused", consecutiveLossesToday := 3 }) ∧
    (∀ (db : LossDB) (sid : ℕ) (st : Strategy) (t4 : TradeRec) (p4 : ℚ),
      findStrategy db sid = some st → st.status = "paused" →
      findTrade db t4.id = some t4 → t4.strategyId = sid → t4.status = "CLOSED" →
        t4.profitLoss = some p4 → ¬p4 < 0 →
      strategyAfterTrades db [t4.id] sid = some { st with consecutiveLossesToday := 0 } ∧
        ({ st with consecutiveLossesToday := 0 } : Strategy).status = "paused") ∧
    (∀ (db : LossDB) (tid : ℕ) (db2 : LossDB),
      trackTradeOutcome db tid = .ok db2 →
      lossInvariant db = true → lossInvariant db2 = true) := by
  refine ⟨?_, ?_, ?_⟩
  · intro db sid st t1 t2 t3 p1 p2 p3 hst h0 ht1 hs1 hc1 hp1 hn1 ht2 hs2 hc2 hp2 hn2
      ht3 hs3 hc3 hp3 hn3
    have hsid : st.id = sid := findStrategy_id hst
    subst hsid
    have hst2 : db.strategies.find? (fun s => s.id == st.id) = some st := hst
    have hstA : findStrategy db t1.strategyId = some st := by
      rw [hs1]
      exact hst
    have step1 := trackTradeOutcome_loss db t1 st p1 ht1 hc1 hp1 hn1 hstA
    have e1 : lossUpdatedStrategy st = ({ st with consecutiveLossesToday := 1 } : Strategy) := by
      simp [lossUpdatedStrategy, MAX_CONSECUTIVE_LOSSES, h0]
    rw [e1] at step1
    have find1 : (updateFirstStrategy db.strategies st.id
        (fun _ => ({ st with consecutiveLossesToday := 1 } : Strategy))).find?
        (fun s => s.id == st.id) = some { st with consecutiveLossesToday := 1 } :=
      find?_updateFirstStrategy db.strategies st.id _ st hst2 rfl
    have ht2b : findTrade { db with strategies := (updateFirstStrategy db.strategies st.id
        (fun _ => ({ st with consecutiveLossesToday := 1 } : Strategy))) } t2.id = some t2 := ht2
    have hstB : findStrategy { db with strategies := (updateFirstStrategy db.strategies st.id
        (fun _ => ({ st with consecutiveLossesToday := 1 } : Strategy))) } t2.strategyId =
        some { st with consecutiveLossesToday := 1 } := by
      rw [hs2]
      exact find1
    have step2 := trackTradeOutcome_loss _ t2 { st with consecutiveLossesToday := 1 } p2
      ht2b hc2 hp2 hn2 hstB
    have e2 : lossUpdatedStrategy ({ st with consecutiveLossesToday := 1 } : Strategy) =
        ({ st with consecutiveLossesToday := 2 } : Strategy) := by
      simp [lossUpdatedStrategy, MAX_CONSECUTIVE_LOSSES]
    rw [e2] at step2
    have find2 : (updateFirstStrategy (updateFirstStrategy db.strategies st.id
        (fun _ => ({ st with consecutiveLossesToday := 1 } : Strategy))) st.id
        (fun _ => ({ st with consecutiveLossesToday := 2 } : Strategy))).find?
        (fun s => s.id == st.id) = some { st with consecutiveLossesToday := 2 } :=
      find?_updateFirstStrategy _ st.id _ _ find1 rfl
    have ht3b : findTrade { { db with strategies := (updateFirstStrategy db.strategies st.id
        (fun _ => ({ st with consecutiveLossesToday := 1 } : Strategy))) } with
        strategies := (updateFirstStrategy (updateFirstStrategy db.strategies st.id
          (fun _ => ({ st with consecutiveLossesToday := 1 } : Strategy))) st.id
          (fun _ => ({ st with consecutiveLossesToday := 2 } : Strategy))) } t3.id =
        some t3 := ht3
    have hstC : findStrategy { { db with strategies := (updateFirstStrategy db.strategies st.id
        (fun _ => ({ st with consecutiveLossesToday := 1 } : Strategy))) } with
        strategies := (updateFirstStrategy (updateFirstStrategy db.strategies st.id
          (fun _ => ({ st with consecutiveLossesToday := 1 } : Strategy))) st.id
          (fun _ => ({ st with consecutiveLossesToday := 2 } : Strategy))) } t3.strategyId =
        some { st with consecutiveLossesToday := 2 } := by
      rw [hs3]
      exact find2
    have step3 := trackTradeOutcome_loss _ t3 { st with consecutiveLossesToday := 2 } p3
      ht3b hc3 hp3 hn3 hstC
    have e3 : lossUpdatedStrategy ({ st with consecutiveLossesToday := 2 } : Strategy) =
        ({ st with status := "paused", consecutiveLossesToday := 3 } : Strategy) := by
      simp [lossUpdatedStrategy, MAX_CONSECUTIVE_LOSSES]
    rw [e3] at step3
    have find3 : (updateFirstStrategy (updateFirstStrategy (updateFirstStrategy db.strategies
        st.id (fun _ => ({ st with consecutiveLossesToday := 1 } : Strategy))) st.id
        (fun _ => ({ st with consecutiveLossesToday := 2 } : Strategy))) st.id
        (fun _ => ({ st with status := "paused", consecutiveLossesToday := 3 } : Strategy))).find?
        (fun s => s.id == st.id) =
        some { st with status := "paused", consecutiveLossesToday := 3 } :=
      find?_updateFirstStrategy _ st.id _ _ find2 rfl
    simp only [strategyAfterTrades, trackMany, step1, Except.bind, step2, step3]
    exact find3
  · intro db sid st t4 p4 hst hpause ht4 hs4 hc4 hp4 hn4
    have hsid : st.id = sid := findStrategy_id hst
    subst hsid
    have hst2 : db.strategies.find? (fun s => s.id == st.id) = some st := hst
    have hstA : findStrategy db t4.strategyId = some st := by
      rw [hs4]
      exact hst
    have step := trackTradeOutcome_win db t4 st p4 ht4 hc4 hp4 hn4 hstA
    have find1 : (updateFirstStrategy db.strategies st.id
        (fun _ => ({ st with consecutiveLossesToday := 0 } : Strategy))).find?
        (fun s => s.id == st.id) = some { st with consecutiveLossesToday := 0 } :=
      find?_updateFirstStrategy db.strategies st.id _ st hst2 rfl
    refine ⟨?_, hpause⟩
    simp only [strategyAfterTrades, trackMany, step, Except.bind]
    exact find1
  · intro db tid db2 h hinv
    rw [lossInvariant_iff] at hinv ⊢
    exact trackOutcome_preserves_inv db tid db2 h hinv

/-- Demo fixture: four closed trades of strategy 1 (three losses, one win). -/
def lossDemoTrades : List TradeRec :=
  [⟨1, 1, 7, "CLOSED", some (-5), 100, 10, none, none, false⟩,
   ⟨2, 1, 7, "CLOSED", some (-5), 100, 10, none, none, false⟩,
   ⟨3, 1, 7, "CLOSED", some (-5), 100, 10, none, none, false⟩,
   ⟨4, 1, 7, "CLOSED", some 5, 100, 10, none, none, false⟩]

/-- Demo fixture: an active strategy with no losses yet. -/
def lossDemoDB : LossDB := ⟨[⟨1, "alpha", "active", 0⟩], lossDemoTrades⟩

/-- Demo fixture: the same strategy already paused with three losses. -/
def lossDemoPausedDB : LossDB := ⟨[⟨1, "alpha", "paused", 3⟩], lossDemoTrades⟩

/-- C2 witness: the three parts of the claim applied to the demo fixtures. -/
theorem claim_C2_witness :
    strategyAfterTrades lossDemoDB [1, 2, 3] 1 = some ⟨1, "alpha", "paused", 3⟩ ∧
    (strategyAfterTrades lossDemoPausedDB [4] 1 = some ⟨1, "alpha", "paused", 0⟩ ∧
      (⟨1, "alpha", "paused", 0⟩ : Strategy).status = "paused") ∧
    (trackTradeOutcome lossDemoDB 1 =
        .ok ⟨[⟨1, "alpha", "active", 1⟩], lossDemoTrades⟩ ∧
      lossInvariant lossDemoDB = true ∧
      lossInvariant (⟨[⟨1, "alpha", "active", 1⟩], lossDemoTrades⟩ : LossDB) = true) := by
  refine ⟨?_, ?_, ?_, ?_, ?_⟩
  · exact claim_C2.1 lossDemoDB 1 ⟨1, "alpha", "active", 0⟩
      ⟨1, 1, 7, "CLOSED", some (-5), 100, 10, none, none, false⟩ ⟨2, 1, 7, "CLOSED", some (-5), 100, 10, none, none, false⟩
      ⟨3, 1, 7, "CLOSED", some (-5), 100, 10, none, none, false⟩ (-5) (-5) (-5)
      (by decide) (by decide) (by decide) (by decide) (by decide) (by decide) (by decide)
      (by decide) (by decide) (by decide) (by decide) (by decide) (by decide) (by decide)
      (by decide) (by decide) (by decide)
  · exact claim_C2.2.1 lossDemoPausedDB 1 ⟨1, "alpha", "paused", 3⟩
      ⟨4, 1, 7, "CLOSED", some 5, 100, 10, none, none, false⟩ 5
      (by decide) (by decide) (by decide) (by decide) (by decide) (by decide) (by decide)
  · rfl
  · decide
  · exact claim_C2.2.2 lossDemoDB 1 ⟨[⟨1, "alpha", "active", 1⟩], lossDemoTrades⟩
      rfl (by decide)

/-! ## PositionService reconciliation (`app/services/trading/position_service.py`) -/

/-- One entry of the `get_broker_positions` map:
`{quantity, avg_cost, market_value}`. -/
structure BrokerPos where
  quantity : ℤ
  avgCost : ℚ
  marketValue : ℚ
  deriving Repr, DecidableEq

/-- One entry of the `get_db_positions` map:
`{quantity, total_cost, avg_cost}` aggregated from open trades. -/
structure DbPos where
  quantity : ℤ
  totalCost : ℚ
  avgCost : ℚ
  deriving Repr, DecidableEq

/-- `get_broker_positions` sets `market_value = position * avgCost` for each
raw broker position `(symbol, quantity, avg_cost)`. -/
def mkBrokerPositions (raw : List (String × ℤ × ℚ)) : List (String × BrokerPos) :=
  raw.map (fun r => (r.1, ⟨r.2.1, r.2.2, (r.2.1 : ℚ) * r.2.2⟩))

/-- `PositionDiscrepancy` -/
structure PositionDiscrepancy where
  symbol : String
  brokerQuantity : ℤ
  dbQuantity : ℤ
  valueDifference : ℚ
  discrepancyType : String
  deriving Repr, DecidableEq

/-- Python dict lookup on a map represented as an association list. -/
def lookupPos {α : Type} (m : List (String × α)) (sym : String) : Option α :=
  (m.find? (fun e => e.1 == sym)).map (fun e => e.2)

/-- The body of the first reconciliation loop for one broker symbol:
`db_positions.get(symbol, {quantity: 0})`, then `EXTRA_AT_BROKER` if the
database quantity is 0, `QUANTITY_MISMATCH` if the quantities differ,
nothing otherwise. -/
def classifyBrokerSymbol (db : List (String × DbPos)) (e : String × BrokerPos) :
    Option PositionDiscrepancy :=
  let dbQty : ℤ :=
    match lookupPos db e.1 with
    | some dd => dd.quantity
    | none => 0
  if dbQty = 0 then
    some ⟨e.1, e.2.quantity, 0, e.2.marketValue, "EXTRA_AT_BROKER"⟩
  else if dbQty ≠ e.2.quantity then
    some ⟨e.1, e.2.quantity, dbQty, ((e.2.quantity - dbQty : ℤ) : ℚ) * e.2.avgCost,
      "QUANTITY_MISMATCH"⟩
  else none

/-- The body of the second reconciliation loop for one database symbol:
`MISSING_AT_BROKER` (value = aggregate cost) if the symbol is not a broker
key. -/
def classifyDbSymbol (broker : List (String × BrokerPos)) (e : String × DbPos) :
    Option PositionDiscrepancy :=
  if (lookupPos broker e.1).isNone then
    some ⟨e.1, 0, e.2.quantity, e.2.totalCost, "MISSING_AT_BROKER"⟩
  else none

/-- One loop iteration: append the discrepancy (if any) and accumulate
`total_value_diff += abs(value_diff)`. -/
def reconcileStep {α : Type} (classify : α → Option PositionDiscrepancy)
    (acc : List PositionDiscrepancy × ℚ) (e : α) : List PositionDiscrepancy × ℚ :=
  match classify e with
  | some d => (acc.1 ++ [d], acc.2 + |d.valueDifference|)
  | none => acc

/-- `PositionService.reconcile_positions` on already-fetched broker and
database position maps: both loops, returning
`(discrepancies, total_value_diff)`. -/
def reconcilePositions (broker : List (String × BrokerPos)) (db : List (String × DbPos)) :
    List PositionDiscrepancy × ℚ :=
  let acc1 := broker.foldl (reconcileStep (classifyBrokerSymbol db)) ([], 0)
  db.foldl (reconcileStep (classifyDbSymbol broker)) acc1

lemma foldl_reconcileStep {α : Type} (classify : α → Option PositionDiscrepancy)
    (xs : List α) (l0 : List PositionDiscrepancy) (t0 : ℚ) :
    xs.foldl (reconcileStep classify) (l0, t0) =
      (l0 ++ xs.filterMap classify,
        t0 + ((xs.filterMap classify).map (fun x => |x.valueDifference|)).sum) := by
  induction xs generalizing l0 t0 with
  | nil => simp
  | cons e rest ih =>
      cases hfe : classify e with
      | none => simp [List.foldl_cons, reconcileStep, hfe, ih]
      | some d =>
          simp only [List.foldl_cons, reconcileStep, hfe, ih, List.filterMap_cons_some hfe]
          simp [List.append_assoc, add_assoc]

lemma classifyBrokerSymbol_symbol (db : List (String × DbPos)) :
    ∀ e d, classifyBrokerSymbol db e = some d → d.symbol = e.1 := by
  intro e d h
  simp only [classifyBrokerSymbol] at h
  split_ifs at h with h1 h2
  · cases h
    rfl
  · cases h
    rfl

lemma classifyDbSymbol_symbol (broker : List (String × BrokerPos)) :
    ∀ e d, classifyDbSymbol broker e = some d → d.symbol = e.1 := by
  intro e d h
  simp only [classifyDbSymbol] at h
  split_ifs at h with h1
  · cases h
    rfl

lemma filterMap_filter_not_key {α : Type} (f : String × α → Option PositionDiscrepancy)
    (hf : ∀ e d, f e = some d → d.symbol = e.1) (xs : List (String × α)) (sym : String)
    (hsym : sym ∉ xs.map Prod.fst) :
    (xs.filterMap f).filter (fun d => d.symbol == sym) = [] := by
  induction xs with
  | nil => rfl
  | cons e rest ih =>
      have hne : e.1 ≠ sym := fun h => hsym (by simp [h])
      have hrest : sym ∉ rest.map Prod.fst := fun h => hsym (by simp [h])
      cases hfe : f e with
      | none => rw [List.filterMap_cons_none hfe]; exact ih hrest
      | some d =>
          rw [List.filterMap_cons_some hfe,
            List.filter_cons_of_neg (by simp [hf e d hfe, hne])]
          exact ih hrest

lemma filter_filterMap_key {α : Type} (f : String × α → Option PositionDiscrepancy)
    (hf : ∀ e d, f e = some d → d.symbol = e.1) (xs : List (String × α)) (sym : String)
    (v : α) (hmem : (sym, v) ∈ xs) (hnd : (xs.map Prod.fst).Nodup) :
    (xs.filterMap f).filter (fun d => d.symbol == sym) = (f (sym, v)).toList := by
  induction xs with
  | nil => cases hmem
  | cons e rest ih =>
      simp only [List.map_cons, List.nodup_cons] at hnd
      obtain ⟨hhead, htail⟩ := hnd
      by_cases hes : e.1 = sym
      · have hev : e = (sym, v) := by
          rcases List.mem_cons.mp hmem with h | h
          · exact h.symm
          · exfalso
            apply hhead
            rw [hes]
            exact List.mem_map_of_mem Prod.fst h
        subst hev
        cases hocc : f (sym, v) with
        | none =>
            rw [List.filterMap_cons_none hocc]
            rw [filterMap_filter_not_key f hf rest sym (hes ▸ hhead)]
            rfl
        | some d =>
            rw [List.filterMap_cons_some hocc,
              List.filter_cons_of_pos (by simp [hf _ d hocc]),
              filterMap_filter_not_key f hf rest sym (hes ▸ hhead)]
            rfl
      · have hmem2 : (sym, v) ∈ rest := by
          rcases List.mem_cons.mp hmem with h | h
          · exact absurd (congrArg Prod.fst h.symm) hes
          · exact h
        cases hfe : f e with
        | none => rw [List.filterMap_cons_none hfe]; exact ih hmem2 htail
        | some d =>
            rw [List.filterMap_cons_some hfe,
              List.filter_cons_of_neg (by simp [hf e d hfe, hes])]
            exact ih hmem2 htail

lemma lookupPos_none_of_not_key {α : Type} (m : List (String × α)) (sym : String)
    (h : sym ∉ m.map Prod.fst) : lookupPos m sym = none := by
  induction m with
  | nil => rfl
  | cons e rest ih =>
      have hne : (e.1 == sym) = false := by
        simp only [beq_eq_false_iff_ne, ne_eq]
        exact fun he => h (by simp [he])
      have hrest : sym ∉ rest.map Prod.fst := fun he => h (by simp [he])
      simp only [lookupPos, List.find?_cons, hne]
      exact ih hrest

lemma lookupPos_of_mem_nodup {α : Type} (m : List (String × α)) (sym : String) (v : α)
    (hmem : (sym, v) ∈ m) (hnd : (m.map Prod.fst).Nodup) : lookupPos m sym = some v := by
  induction m with
  | nil => cases hmem
  | cons e rest ih =>
      simp only [List.map_cons, List.nodup_cons] at hnd
      obtain ⟨hhead, htail⟩ := hnd
      by_cases hes : e.1 = sym
      · have hev : e = (sym, v) := by
          rcases List.mem_cons.mp hmem with h | h
          · exact h.symm
          · exact absurd (hes ▸ List.mem_map_of_mem Prod.fst h) hhead
        subst hev
        simp [lookupPos, List.find?_cons]
      · have hmem2 : (sym, v) ∈ rest := by
          rcases List.mem_cons.mp hmem with h | h
          · exact absurd (congrArg Prod.fst h.symm) hes
          · exact h
        have hne : (e.1 == sym) = false := by
          simp only [beq_eq_false_iff_ne, ne_eq]
          exact hes
        simp only [lookupPos, List.find?_cons, hne]
        exact ih hmem2 htail

lemma reconcilePositions_eq (broker : List (String × BrokerPos)) (db : List (String × DbPos)) :
    reconcilePositions broker db =
      (broker.filterMap (classifyBrokerSymbol db) ++ db.filterMap (classifyDbSymbol broker),
        ((broker.filterMap (classifyBrokerSymbol db) ++
            db.filterMap (classifyDbSymbol broker)).map
          (fun d => |d.valueDifference|)).sum) := by
  unfold reconcilePositions
  rw [foldl_reconcileStep, foldl_reconcileStep]
  simp

/-- The discrepancies reported for one symbol. -/
def symbolDiscrepancies (r : List PositionDiscrepancy × ℚ) (sym : String) :
    List PositionDiscrepancy :=
  r.1.filter (fun d => d.symbol == sym)

/-- C3: on snapshot maps with distinct keys, broker market values derived as
`quantity × avgCost`, and non-zero local quantities, reconciliation yields
exactly one `EXTRA_AT_BROKER` per broker-only symbol (value
`brokerQty × avgCost`), exactly one `MISSING_AT_BROKER` per local-only
symbol (value the local aggregate cost), exactly one `QUANTITY_MISMATCH`
per shared symbol with differing quantities (value
`(brokerQty − localQty) × brokerAvgCost`), none for a shared symbol with
equal quantities, and a returned total equal to the sum of the absolute
discrepancy values. -/
theorem claim_C3 (broker : List (String × BrokerPos)) (db : List (String × DbPos))
    (hbn : (broker.map Prod.fst).Nodup) (hdn : (db.map Prod.fst).Nodup)
    (hmv : ∀ e ∈ broker,
      (Prod.snd e).marketValue = ((Prod.snd e).quantity : ℚ) * (Prod.snd e).avgCost)
    (hdq : ∀ e ∈ db, (Prod.snd e).quantity ≠ 0) :
    (∀ sym bd, (sym, bd) ∈ broker → sym ∉ db.map Prod.fst →
      symbolDiscrepancies (reconcilePositions broker db) sym =
        [⟨sym, bd.quantity, 0, (bd.quantity : ℚ) * bd.avgCost, "EXTRA_AT_BROKER"⟩]) ∧
    (∀ sym dd, (sym, dd) ∈ db → sym ∉ broker.map Prod.fst →
      symbolDiscrepancies (reconcilePositions broker db) sym =
        [⟨sym, 0, dd.quantity, dd.totalCost, "MISSING_AT_BROKER"⟩]) ∧
    (∀ sym bd dd, (sym, bd) ∈ broker → (sym, dd) ∈ db → dd.quantity ≠ bd.quantity →
      symbolDiscrepancies (reconcilePositions broker db) sym =
        [⟨sym, bd.quantity, dd.quantity,
          ((bd.quantity - dd.quantity : ℤ) : ℚ) * bd.avgCost, "QUANTITY_MISMATCH"⟩]) ∧
    (∀ sym bd dd, (sym, bd) ∈ broker → (sym, dd) ∈ db → dd.quantity = bd.quantity →
      symbolDiscrepancies (reconcilePositions broker db) sym = []) ∧
    (reconcilePositions broker db).2 =
      ((reconcilePositions broker db).1.map (fun d => |d.valueDifference|)).sum := by
  refine ⟨?_, ?_, ?_, ?_, ?_⟩
  · intro sym bd hmem hnk
    have hlook : lookupPos db sym = none := lookupPos_none_of_not_key db sym hnk
    have hcl : classifyBrokerSymbol db (sym, bd) =
        some ⟨sym, bd.quantity, 0, bd.marketValue, "EXTRA_AT_BROKER"⟩ := by
      simp [classifyBrokerSymbol, hlook]
    unfold symbolDiscrepancies
    rw [reconcilePositions_eq]
    dsimp only
    rw [List.filter_append,
      filter_filterMap_key _ (classifyBrokerSymbol_symbol db) broker sym bd hmem hbn,
      filterMap_filter_not_key _ (classifyDbSymbol_symbol broker) db sym hnk, hcl,
      hmv (sym, bd) hmem]
    rfl
  · intro sym dd hmem hnk
    have hlook : lookupPos broker sym = none := lookupPos_none_of_not_key broker sym hnk
    have hcl : classifyDbSymbol broker (sym, dd) =
        some ⟨sym, 0, dd.quantity, dd.totalCost, "MISSING_AT_BROKER"⟩ := by
      simp [classifyDbSymbol, hlook]
    unfold symbolDiscrepancies
    rw [reconcilePositions_eq]
    dsimp only
    rw [List.filter_append,
      filterMap_filter_not_key _ (classifyBrokerSymbol_symbol db) broker sym hnk,
      filter_filterMap_key _ (classifyDbSymbol_symbol broker) db sym dd hmem hdn, hcl]
    rfl
  · intro sym bd dd hmemb hmemd hneq
    have hlookd : lookupPos db sym = some dd := lookupPos_of_mem_nodup db sym dd hmemd hdn
    have hlookb : lookupPos broker sym = some bd :=
      lookupPos_of_mem_nodup broker sym bd hmemb hbn
    have hq0 : dd.quantity ≠ 0 := hdq (sym, dd) hmemd
    have hclb : classifyBrokerSymbol db (sym, bd) =
        some ⟨sym, bd.quantity, dd.quantity,
          ((bd.quantity - dd.quantity : ℤ) : ℚ) * bd.avgCost, "QUANTITY_MISMATCH"⟩ := by
      simp [classifyBrokerSymbol, hlookd, hq0, hneq]
    have hcld : classifyDbSymbol broker (sym, dd) = none := by
      simp [classifyDbSymbol, hlookb]
    unfold symbolDiscrepancies
    rw [reconcilePositions_eq]
    dsimp only
    rw [List.filter_append,
      filter_filterMap_key _ (classifyBrokerSymbol_symbol db) broker sym bd hmemb hbn,
      filter_filterMap_key _ (classifyDbSymbol_symbol broker) db sym dd hmemd hdn,
      hclb, hcld]
    rfl
  · intro sym bd dd hmemb hmemd heq
    have hlookd : lookupPos db sym = some dd := lookupPos_of_mem_nodup db sym dd hmemd hdn
    have hlookb : lookupPos broker sym = some bd :=
      lookupPos_of_mem_nodup broker sym bd hmemb hbn
    have hq0 : dd.quantity ≠ 0 := hdq (sym, dd) hmemd
    have hq0b : bd.quantity ≠ 0 := heq ▸ hq0
    have hclb : classifyBrokerSymbol db (sym, bd) = none := by
      simp [classifyBrokerSymbol, hlookd, hq0b, heq]
    have hcld : classifyDbSymbol broker (sym, dd) = none := by
      simp [classifyDbSymbol, hlookb]
    unfold symbolDiscrepancies
    rw [reconcilePositions_eq]
    dsimp only
    rw [List.filter_append,
      filter_filterMap_key _ (classifyBrokerSymbol_symbol db) broker sym bd hmemb hbn,
      filter_filterMap_key _ (classifyDbSymbol_symbol broker) db sym dd hmemd hdn,
      hclb, hcld]
    rfl
  · rw [reconcilePositions_eq]

lemma mkBrokerPositions_marketValue (raw : List (String × ℤ × ℚ)) :
    ∀ e ∈ mkBrokerPositions raw,
      (Prod.snd e).marketValue = ((Prod.snd e).quantity : ℚ) * (Prod.snd e).avgCost := by
  intro e he
  simp only [mkBrokerPositions, List.mem_map] at he
  obtain ⟨r, hr, rfl⟩ := he
  rfl

/-- Demo fixture: broker snapshot with AAPL only at the broker, MSFT at a
different quantity, TSLA matching. -/
def reconDemoBroker : List (String × BrokerPos) :=
  mkBrokerPositions [("AAPL", 10, 100), ("MSFT", 5, 50), ("TSLA", 7, 20)]

/-- Demo fixture: local snapshot with GOOG only locally. -/
def reconDemoDb : List (String × DbPos) :=
  [("MSFT", ⟨3, 150, 50⟩), ("GOOG", ⟨4, 400, 100⟩), ("TSLA", ⟨7, 140, 20⟩)]

/-- C3 witness: the reconciliation claims applied to the demo snapshots. -/
theorem claim_C3_witness :
    symbolDiscrepancies (reconcilePositions reconDemoBroker reconDemoDb) "AAPL" =
      [⟨"AAPL", 10, 0, ((10 : ℤ) : ℚ) * 100, "EXTRA_AT_BROKER"⟩] ∧
    symbolDiscrepancies (reconcilePositions reconDemoBroker reconDemoDb) "GOOG" =
      [⟨"GOOG", 0, 4, 400, "MISSING_AT_BROKER"⟩] ∧
    symbolDiscrepancies (reconcilePositions reconDemoBroker reconDemoDb) "MSFT" =
      [⟨"MSFT", 5, 3, (((5 : ℤ) - 3 : ℤ) : ℚ) * 50, "QUANTITY_MISMATCH"⟩] ∧
    symbolDiscrepancies (reconcilePositions reconDemoBroker reconDemoDb) "TSLA" = [] ∧
    (reconcilePositions reconDemoBroker reconDemoDb).2 =
      ((reconcilePositions reconDemoBroker reconDemoDb).1.map
        (fun d => |d.valueDifference|)).sum := by
  have h := claim_C3 reconDemoBroker reconDemoDb (by decide) (by decide)
    (mkBrokerPositions_marketValue _) (by decide)
  exact ⟨h.1 "AAPL" ⟨10, 100, ((10 : ℤ) : ℚ) * 100⟩
      (by simp [reconDemoBroker, mkBrokerPositions]) (by decide),
    h.2.1 "GOOG" ⟨4, 400, 100⟩ (by simp [reconDemoDb]) (by decide),
    h.2.2.1 "MSFT" ⟨5, 50, ((5 : ℤ) : ℚ) * 50⟩ ⟨3, 150, 50⟩
      (by simp [reconDemoBroker, mkBrokerPositions]) (by simp [reconDemoDb]) (by decide),
    h.2.2.2.1 "TSLA" ⟨7, 20, ((7 : ℤ) : ℚ) * 20⟩ ⟨7, 140, 20⟩
      (by simp [reconDemoBroker, mkBrokerPositions]) (by simp [reconDemoDb]) rfl,
    h.2.2.2.2⟩

/-! ## RiskManager (`app/services/risk/risk_manager.py`) -/

/-- `ValidationResult` -/
structure ValidationResult where
  isValid : Bool
  reason : Option String
  deriving Repr, DecidableEq

/-- `RiskManager.MAX_STRATEGY_ALLOCATION_PERCENT` -/
def MAX_STRATEGY_ALLOCATION_PERCENT : ℚ := 50 / 100

/-- The database state visible to `RiskManager`. -/
structure RiskDB where
  strategies : List Strategy
  stocks : List Stock
  trades : List TradeRec
  deriving Repr, DecidableEq

/-- The account values fetched from the broker
(`NetLiquidation` / `BuyingPower`). -/
structure AccountEnv where
  portfolioValue : ℚ
  buyingPower : ℚ
  deriving Repr, DecidableEq

/-- `db.query(Stock).filter(Stock.symbol == symbol).first()` -/
def findStockBySymbol (stocks : List Stock) (symbol : String) : Option Stock :=
  stocks.find? (fun s => s.symbol == symbol)

/-- `db.query(Trade).filter(strategy_id, stock_id, status == OPEN).first()` -/
def findOpenTrade (trades : List TradeRec) (strategyId stockId : ℕ) : Option TradeRec :=
  trades.find? (fun t => t.strategyId == strategyId && t.stockId == stockId &&
    t.status == "OPEN")

/-- `RiskManager.check_daily_loss_limit` -/
def checkDailyLossLimit (strategies : List Strategy) (strategyId : ℕ) : ValidationResult :=
  match strategies.find? (fun s => s.id == strategyId) with
  | none => ⟨false, some ("Strategy not found: " ++ toString strategyId)⟩
  | some strategy =>
      if strategy.status = "paused" then
        ⟨false, some ("Strategy paused (likely due to daily loss limit): " ++ strategy.name)⟩
      else ⟨true, none⟩

/-- `RiskManager.check_duplicate_position` -/
def checkDuplicatePosition (db : RiskDB) (strategyId : ℕ) (symbol : String) :
    ValidationResult :=
  match findStockBySymbol db.stocks symbol with
  | none => ⟨false, some ("Stock not found: " ++ symbol)⟩
  | some stock =>
      match findOpenTrade db.trades strategyId stock.id with
      | some existing =>
          ⟨false, some ("Duplicate position: already holding " ++ symbol ++
            " (trade_id=" ++ toString existing.id ++ ", qty=" ++
            toString existing.quantity ++ ")")⟩
      | none => ⟨true, none⟩

/-- `RiskManager.check_position_size_limit` -/
def checkPositionSizeLimit (env : AccountEnv) (position_value : ℚ) : ValidationResult :=
  let position_percent := position_value / env.portfolioValue
  if MAX_POSITION_PERCENT < position_percent then
    ⟨false, some "Position size exceeds 20% limit"⟩
  else ⟨true, none⟩

/-- `RiskManager.check_sufficient_capital` -/
def checkSufficientCapital (env : AccountEnv) (position_value : ℚ) : ValidationResult :=
  if env.buyingPower < position_value then
    ⟨false, some "Insufficient capital"⟩
  else ⟨true, none⟩

/-- `RiskManager._get_strategy_allocation`: total `entry_price * quantity`
over the strategy's open trades. -/
def getStrategyAllocation (trades : List TradeRec) (strategyId : ℕ) : ℚ :=
  ((trades.filter (fun t => t.strategyId == strategyId && t.status == "OPEN")).map
    (fun t => t.entryPrice * (t.quantity : ℚ))).sum

/-- `RiskManager.check_portfolio_allocation` -/
def checkPortfolioAllocation (db : RiskDB) (env : AccountEnv) (strategyId : ℕ)
    (new_position_value : ℚ) : ValidationResult :=
  let current_allocation := getStrategyAllocation db.trades strategyId
  let new_allocation := current_allocation + new_position_value
  let new_allocation_percent := new_allocation / env.portfolioValue
  if MAX_STRATEGY_ALLOCATION_PERCENT < new_allocation_percent then
    ⟨false, some "Strategy allocation exceeds 50% limit"⟩
  else ⟨true, none⟩

/-- The scan over the eagerly-built `checks` list: return the first failing
check's result, or success. -/
def firstFailure (checks : List (String × ValidationResult)) : ValidationResult :=
  match checks with
  | [] => ⟨true, none⟩
  | (_, r) :: rest => if r.isValid then firstFailure rest else r

/-- `RiskManager.validate_trade`.  The Python builds the `checks` list
eagerly — all five check calls run before the loop inspects any result —
then returns the first failing result.  The second component records the
checks evaluated while building the list (always all five, in order). -/
def validateTrade (db : RiskDB) (env : AccountEnv) (strategyId : ℕ) (symbol : String)
    (position_value : ℚ) : ValidationResult × List String :=
  let checks : List (String × ValidationResult) := [
    ("Daily Loss Limit", checkDailyLossLimit db.strategies strategyId),
    ("Duplicate Position", checkDuplicatePosition db strategyId symbol),
    ("Position Size Limit", checkPositionSizeLimit env position_value),
    ("Sufficient Capital", checkSufficientCapital env position_value),
    ("Portfolio Allocation", checkPortfolioAllocation db env strategyId position_value)]
  (firstFailure checks, checks.map Prod.fst)

/-- Character-list prefix test (executable). -/
def charsStartWith : List Char → List Char → Bool
  | [], _ => true
  | _ :: _, [] => false
  | a :: as, b :: bs => a == b && charsStartWith as bs

/-- Character-list substring test (executable). -/
def charsHave (pat : List Char) : List Char → Bool
  | [] => charsStartWith pat []
  | t :: ts => charsStartWith pat (t :: ts) || charsHave pat ts

/-- Substring containment on strings. -/
def strContains (s pat : String) : Bool := charsHave pat.data s.data

lemma charsStartWith_append (p l r : List Char) (h : charsStartWith p l = true) :
    charsStartWith p (l ++ r) = true := by
  induction p generalizing l with
  | nil => rfl
  | cons a as ih =>
      cases l with
      | nil => exact absurd h (by simp [charsStartWith])
      | cons b bs =>
          simp only [charsStartWith, Bool.and_eq_true] at h ⊢
          exact ⟨h.1, ih bs h.2⟩

lemma charsHave_of_start (p l : List Char) (h : charsStartWith p l = true) :
    charsHave p l = true := by
  cases l with
  | nil => exact h
  | cons t ts => simp [charsHave, h]

/-- A concrete demo risk state: strategy 1 is paused, strategy 2 is active,
and both hold an open AAPL position. -/
def riskDemoDB : RiskDB :=
  { strategies := [⟨1, "alpha", "paused", 3⟩, ⟨2, "beta", "active", 0⟩]
    stocks := [⟨7, "AAPL"⟩]
    trades := [⟨11, 1, 7, "OPEN", none, 100, 10, none, none, false⟩, ⟨12, 2, 7, "OPEN", none, 100, 10, none, none, false⟩] }

/-- A demo account: ample portfolio and buying power. -/
def riskDemoEnv : AccountEnv := ⟨100000, 100000⟩

/-- C4 (counterexample): `validate_trade` does not short-circuit execution.
With strategy 1 paused, the first check fails, yet all five checks are
still evaluated (the `checks` list is built eagerly before the loop). -/
theorem claim_C4_counterexample :
    (checkDailyLossLimit riskDemoDB.strategies 1).isValid = false ∧
    (validateTrade riskDemoDB riskDemoEnv 1 "AAPL" 1000).2 ≠ ["Daily Loss Limit"] ∧
    (validateTrade riskDemoDB riskDemoEnv 1 "AAPL" 1000).2 =
      ["Daily Loss Limit", "Duplicate Position", "Position Size Limit",
       "Sufficient Capital", "Portfolio Allocation"] := by
  refine ⟨rfl, ?_, rfl⟩
  decide

/-- C4 (amended): the five checks are laid out in the fixed order (daily
loss limit, duplicate position, position size cap, capital sufficiency,
strategy allocation cap) and the returned result is the first failing
check's result in that order — but evaluation is eager: all five checks
run even when an earlier one fails, and only the returned result
short-circuits. -/
theorem claim_C4 (db : RiskDB) (env : AccountEnv) (strategyId : ℕ) (symbol : String)
    (pv : ℚ) :
    (validateTrade db env strategyId symbol pv).2 =
      ["Daily Loss Limit", "Duplicate Position", "Position Size Limit",
       "Sufficient Capital", "Portfolio Allocation"] ∧
    ((checkDailyLossLimit db.strategies strategyId).isValid = false →
      (validateTrade db env strategyId symbol pv).1 =
        checkDailyLossLimit db.strategies strategyId) ∧
    ((checkDailyLossLimit db.strategies strategyId).isValid = true →
      (checkDuplicatePosition db strategyId symbol).isValid = false →
      (validateTrade db env strategyId symbol pv).1 =
        checkDuplicatePosition db strategyId symbol) ∧
    ((checkDailyLossLimit db.strategies strategyId).isValid = true →
      (checkDuplicatePosition db strategyId symbol).isValid = true →
      (checkPositionSizeLimit env pv).isValid = false →
      (validateTrade db env strategyId symbol pv).1 = checkPositionSizeLimit env pv) ∧
    ((checkDailyLossLimit db.strategies strategyId).isValid = true →
      (checkDuplicatePosition db strategyId symbol).isValid = true →
      (checkPositionSizeLimit env pv).isValid = true →
      (checkSufficientCapital env pv).isValid = false →
      (validateTrade db env strategyId symbol pv).1 = checkSufficientCapital env pv) ∧
    ((checkDailyLossLimit db.strategies strategyId).isValid = true →
      (checkDuplicatePosition db strategyId symbol).isValid = true →
      (checkPositionSizeLimit env pv).isValid = true →
      (checkSufficientCapital env pv).isValid = true →
      (checkPortfolioAllocation db env strategyId pv).isValid = false →
      (validateTrade db env strategyId symbol pv).1 =
        checkPortfolioAllocation db env strategyId pv) ∧
    ((checkDailyLossLimit db.strategies strategyId).isValid = true →
      (checkDuplicatePosition db strategyId symbol).isValid = true →
      (checkPositionSizeLimit env pv).isValid = true →
      (checkSufficientCapital env pv).isValid = true →
      (checkPortfolioAllocation db env strategyId pv).isValid = true →
      (validateTrade db env strategyId symbol pv).1 = ⟨true, none⟩) := by
  refine ⟨rfl, ?_, ?_, ?_, ?_, ?_, ?_⟩
  · intro h1
    simp [validateTrade, firstFailure, h1]
  · intro h1 h2
    simp [validateTrade, firstFailure, h1, h2]
  · intro h1 h2 h3
    simp [validateTrade, firstFailure, h1, h2, h3]
  · intro h1 h2 h3 h4
    simp [validateTrade, firstFailure, h1, h2, h3, h4]
  · intro h1 h2 h3 h4 h5
    simp [validateTrade, firstFailure, h1, h2, h3, h4, h5]
  · intro h1 h2 h3 h4 h5
    simp [validateTrade, firstFailure, h1, h2, h3, h4, h5]

/-- C4 witness: with strategy 1 paused in the demo state, the evaluated
list still has all five names and the returned result is the daily-loss
rejection. -/
theorem claim_C4_witness :
    (validateTrade riskDemoDB riskDemoEnv 1 "AAPL" 1000).2 =
      ["Daily Loss Limit", "Duplicate Position", "Position Size Limit",
       "Sufficient Capital", "Portfolio Allocation"] ∧
    (checkDailyLossLimit riskDemoDB.strategies 1).isValid = false ∧
    (validateTrade riskDemoDB riskDemoEnv 1 "AAPL" 1000).1 =
      checkDailyLossLimit riskDemoDB.strategies 1 :=
  ⟨(claim_C4 riskDemoDB riskDemoEnv 1 "AAPL" 1000).1, rfl,
    (claim_C4 riskDemoDB riskDemoEnv 1 "AAPL" 1000).2.1 rfl⟩

/-- C6 (counterexample): the claim fails as stated.  Strategy 1 holds an
open AAPL trade but is paused, so the daily-loss check (which runs first)
produces the rejection and the reason does not contain "duplicate".
Moreover even for the active strategy 2, which is rejected by the
duplicate check, the code's reason says "Duplicate position: ..." — the
lowercase substring "duplicate" never occurs. -/
theorem claim_C6_counterexample :
    findOpenTrade riskDemoDB.trades 1 7 = some ⟨11, 1, 7, "OPEN", none, 100, 10, none, none, false⟩ ∧
    strContains (((validateTrade riskDemoDB riskDemoEnv 1 "AAPL" 1000).1.reason).getD "")
      "duplicate" = false ∧
    findOpenTrade riskDemoDB.trades 2 7 = some ⟨12, 2, 7, "OPEN", none, 100, 10, none, none, false⟩ ∧
    (validateTrade riskDemoDB riskDemoEnv 2 "AAPL" 1000).1.isValid = false ∧
    strContains (((validateTrade riskDemoDB riskDemoEnv 2 "AAPL" 1000).1.reason).getD "")
      "duplicate" = false := by
  refine ⟨rfl, by decide, rfl, rfl, by decide⟩

/-- C6 (amended): whenever the strategy exists and is not paused (the
daily-loss check precedes the duplicate check) and an open trade exists
for the (strategy, symbol) pair, `validate_trade` returns a rejection
whose reason contains "Duplicate" (capitalised as in the code), regardless
of the candidate position size. -/
theorem claim_C6 (db : RiskDB) (env : AccountEnv) (strategyId : ℕ) (symbol : String)
    (pv : ℚ) (st : Strategy) (stock : Stock) (t : TradeRec)
    (hst : db.strategies.find? (fun s => s.id == strategyId) = some st)
    (hnp : ¬st.status = "paused")
    (hstock : findStockBySymbol db.stocks symbol = some stock)
    (ht : findOpenTrade db.trades strategyId stock.id = some t) :
    (validateTrade db env strategyId symbol pv).1.isValid = false ∧
    strContains (((validateTrade db env strategyId symbol pv).1.reason).getD "")
      "Duplicate" = true := by
  have hdaily : checkDailyLossLimit db.strategies strategyId = ⟨true, none⟩ := by
    simp [checkDailyLossLimit, hst, hnp]
  have hdup : checkDuplicatePosition db strategyId symbol =
      ⟨false, some ("Duplicate position: already holding " ++ symbol ++
        " (trade_id=" ++ toString t.id ++ ", qty=" ++ toString t.quantity ++ ")")⟩ := by
    simp [checkDuplicatePosition, hstock, ht]
  have hres : (validateTrade db env strategyId symbol pv).1 =
      ⟨false, some ("Duplicate position: already holding " ++ symbol ++
        " (trade_id=" ++ toString t.id ++ ", qty=" ++ toString t.quantity ++ ")")⟩ := by
    simp [validateTrade, firstFailure, hdaily, hdup]
  rw [hres]
  refine ⟨rfl, ?_⟩
  show charsHave "Duplicate".data
    (String.data ("Duplicate position: already holding " ++ symbol ++
      " (trade_id=" ++ toString t.id ++ ", qty=" ++ toString t.quantity ++ ")")) = true
  apply charsHave_of_start
  simp only [String.data_append, List.append_assoc]
  apply charsStartWith_append
  decide

/-- C6 witness: the amended claim applied to the active strategy 2 holding
an open AAPL position in the demo state. -/
theorem claim_C6_witness :
    (validateTrade riskDemoDB riskDemoEnv 2 "AAPL" 1000).1.isValid = false ∧
    strContains (((validateTrade riskDemoDB riskDemoEnv 2 "AAPL" 1000).1.reason).getD "")
      "Duplicate" = true :=
  claim_C6 riskDemoDB riskDemoEnv 2 "AAPL" 1000 ⟨2, "beta", "active", 0⟩ ⟨7, "AAPL"⟩
    ⟨12, 2, 7, "OPEN", none, 100, 10, none, none, false⟩ rfl (by decide) rfl rfl

/-! ## OrderService (`app/services/trading/order_service.py`) -/

/-- `Order` row: the fields read or written by `update_order_status`. -/
structure OrderRec where
  id : ℕ
  brokerOrderId : Option String
  status : String
  filledPrice : Option ℚ
  filledQuantity : Option ℚ
  filledAt : Option ℕ
  tradeId : Option ℕ
  deriving Repr, DecidableEq

/-- The broker-side order report (`trade.orderStatus`), looked up by broker
order id from `_order_tracking` or `ib.trades()`. -/
structure IBOrderStatus where
  status : String
  avgFillPrice : ℚ
  filled : ℚ
  deriving Repr, DecidableEq

/-- `db.query(Order).filter(Order.broker_order_id == broker_order_id).first()` -/
def findOrderByBrokerId (orders : List OrderRec) (brokerOrderId : String) : Option OrderRec :=
  orders.find? (fun o => o.brokerOrderId == some brokerOrderId)

/-- Mutating the ORM object returned by `.first()`: replace the first row
whose broker order id matches. -/
def updateFirstOrder (l : List OrderRec) (brokerOrderId : String)
    (f : OrderRec → OrderRec) : List OrderRec :=
  match l with
  | [] => []
  | o :: rest =>
      if o.brokerOrderId == some brokerOrderId then f o :: rest
      else o :: updateFirstOrder rest brokerOrderId f

/-- The status mapping of `update_order_status`: `Filled` sets local
`FILLED` with fill data, `Cancelled`/`ApiCancelled`/`Inactive` set
`CANCELLED`, `Submitted` sets `PENDING`, anything else leaves the record
unchanged. -/
def applyBrokerStatus (ib : IBOrderStatus) (now : ℕ) (o : OrderRec) : OrderRec :=
  if ib.status = "Filled" then
    { o with status := "FILLED", filledAt := some now,
             filledPrice := some ib.avgFillPrice, filledQuantity := some ib.filled }
  else if ib.status = "Cancelled" then { o with status := "CANCELLED" }
  else if ib.status = "ApiCancelled" ∨ ib.status = "Inactive" then
    { o with status := "CANCELLED" }
  else if ib.status = "Submitted" then { o with status := "PENDING" }
  else o

/-- `OrderService.update_order_status`: returns the (refreshed) order and
the resulting order table. -/
def updateOrderStatus (orders : List OrderRec) (brokerView : String → Option IBOrderStatus)
    (now : ℕ) (brokerOrderId : String) : Option OrderRec × List OrderRec :=
  match findOrderByBrokerId orders brokerOrderId with
  | none => (none, orders)
  | some dbOrder =>
      match brokerView brokerOrderId with
      | none => (some dbOrder, orders)
      | some ib =>
          let orders2 := updateFirstOrder orders brokerOrderId (applyBrokerStatus ib now)
          (findOrderByBrokerId orders2 brokerOrderId, orders2)

lemma updateFirstOrder_cons_pos {o : OrderRec} {bid : String} (rest : List OrderRec)
    (f : OrderRec → OrderRec) (ho : o.brokerOrderId = some bid) :
    updateFirstOrder (o :: rest) bid f = f o :: rest := by
  simp only [updateFirstOrder]
  rw [if_pos (by simpa using ho)]

lemma updateFirstOrder_cons_neg {o : OrderRec} {bid : String} (rest : List OrderRec)
    (f : OrderRec → OrderRec) (ho : ¬o.brokerOrderId = some bid) :
    updateFirstOrder (o :: rest) bid f = o :: updateFirstOrder rest bid f := by
  simp only [updateFirstOrder]
  rw [if_neg (by simpa using ho)]

lemma find?_updateFirstOrder (l : List OrderRec) (bid : String) (f : OrderRec → OrderRec)
    (o : OrderRec) (h : l.find? (fun x => x.brokerOrderId == some bid) = some o)
    (hid : (f o).brokerOrderId = some bid) :
    (updateFirstOrder l bid f).find? (fun x => x.brokerOrderId == some bid) = some (f o) := by
  induction l with
  | nil => simp [List.find?] at h
  | cons a rest ih =>
      by_cases ha : a.brokerOrderId = some bid
      · have hoa : o = a := by
          rw [List.find?_cons_of_pos _ (by simpa using ha)] at h
          exact (Option.some_inj.mp h).symm
        subst hoa
        rw [updateFirstOrder_cons_pos rest f ha]
        exact List.find?_cons_of_pos _ (by simpa using hid)
      · rw [List.find?_cons_of_neg _ (by simpa using ha)] at h
        rw [updateFirstOrder_cons_neg rest f ha,
          List.find?_cons_of_neg _ (by simpa using ha)]
        exact ih h

lemma updateFirstOrder_eq_self (l : List OrderRec) (bid : String) (f : OrderRec → OrderRec)
    (o : OrderRec) (h : l.find? (fun x => x.brokerOrderId == some bid) = some o)
    (hfix : f o = o) : updateFirstOrder l bid f = l := by
  induction l with
  | nil => rfl
  | cons a rest ih =>
      by_cases ha : a.brokerOrderId = some bid
      · have hoa : o = a := by
          rw [List.find?_cons_of_pos _ (by simpa using ha)] at h
          exact (Option.some_inj.mp h).symm
        subst hoa
        rw [updateFirstOrder_cons_pos rest f ha, hfix]
      · rw [List.find?_cons_of_neg _ (by simpa using ha)] at h
        rw [updateFirstOrder_cons_neg rest f ha, ih h]

/-- C9: applying broker status `Filled` to the same order twice is
idempotent.  The first application sets `FILLED` with the broker's fill
price; the second (with the same broker report) leaves the order table
unchanged and returns the same record; even with a different wall-clock
timestamp the second application changes nothing but `filled_at` — status
and fill price are identical. -/
theorem claim_C9 (orders : List OrderRec) (bv : String → Option IBOrderStatus)
    (now now2 : ℕ) (bid : String) (o : OrderRec) (ib : IBOrderStatus)
    (ho : findOrderByBrokerId orders bid = some o)
    (hbv : bv bid = some ib) (hf : ib.status = "Filled") :
    (updateOrderStatus orders bv now bid).1 =
      some { o with
        status := "FILLED", filledAt := some now,
        filledPrice := some ib.avgFillPrice, filledQuantity := some ib.filled } ∧
    (updateOrderStatus (updateOrderStatus orders bv now bid).2 bv now bid).2 =
      (updateOrderStatus orders bv now bid).2 ∧
    (updateOrderStatus (updateOrderStatus orders bv now bid).2 bv now bid).1 =
      (updateOrderStatus orders bv now bid).1 ∧
    (updateOrderStatus (updateOrderStatus orders bv now bid).2 bv now2 bid).1 =
      some { o with
        status := "FILLED", filledAt := some now2,
        filledPrice := some ib.avgFillPrice, filledQuantity := some ib.filled } := by
  have hobid : o.brokerOrderId = some bid := by
    have := List.find?_some ho
    simpa using this
  have hid : (applyBrokerStatus ib now o).brokerOrderId = some bid := by
    simp only [applyBrokerStatus]
    split_ifs
    all_goals simpa using hobid
  have hfill : applyBrokerStatus ib now o =
      { o with
        status := "FILLED", filledAt := some now,
        filledPrice := some ib.avgFillPrice, filledQuantity := some ib.filled } := by
    simp [applyBrokerStatus, hf]
  have find1 : findOrderByBrokerId
      (updateFirstOrder orders bid (applyBrokerStatus ib now)) bid =
      some (applyBrokerStatus ib now o) :=
    find?_updateFirstOrder orders bid _ o ho hid
  have h1 : updateOrderStatus orders bv now bid =
      (some (applyBrokerStatus ib now o),
        updateFirstOrder orders bid (applyBrokerStatus ib now)) := by
    simp only [updateOrderStatus, ho, hbv, find1]
  have hfix : applyBrokerStatus ib now (applyBrokerStatus ib now o) =
      applyBrokerStatus ib now o := by
    simp [applyBrokerStatus, hf]
  have hl2 : updateFirstOrder (updateFirstOrder orders bid (applyBrokerStatus ib now)) bid
      (applyBrokerStatus ib now) = updateFirstOrder orders bid (applyBrokerStatus ib now) :=
    updateFirstOrder_eq_self _ bid _ (applyBrokerStatus ib now o) find1 hfix
  have h2 : updateOrderStatus (updateFirstOrder orders bid (applyBrokerStatus ib now))
      bv now bid =
      (some (applyBrokerStatus ib now o),
        updateFirstOrder orders bid (applyBrokerStatus ib now)) := by
    simp only [updateOrderStatus, find1, hbv, hl2]
  have hid2 : (applyBrokerStatus ib now2 (applyBrokerStatus ib now o)).brokerOrderId =
      some bid := by
    simp only [applyBrokerStatus]
    split_ifs
    all_goals simpa using hobid
  have find2 : findOrderByBrokerId (updateFirstOrder
      (updateFirstOrder orders bid (applyBrokerStatus ib now)) bid
      (applyBrokerStatus ib now2)) bid =
      some (applyBrokerStatus ib now2 (applyBrokerStatus ib now o)) :=
    find?_updateFirstOrder _ bid _ (applyBrokerStatus ib now o) find1 hid2
  have h3 : updateOrderStatus (updateFirstOrder orders bid (applyBrokerStatus ib now))
      bv now2 bid =
      (some (applyBrokerStatus ib now2 (applyBrokerStatus ib now o)),
        updateFirstOrder (updateFirstOrder orders bid (applyBrokerStatus ib now)) bid
          (applyBrokerStatus ib now2)) := by
    simp only [updateOrderStatus, find1, hbv, find2]
  refine ⟨?_, ?_, ?_, ?_⟩
  · rw [h1, hfill]
  · rw [h1]
    show (updateOrderStatus (updateFirstOrder orders bid (applyBrokerStatus ib now))
      bv now bid).2 = updateFirstOrder orders bid (applyBrokerStatus ib now)
    rw [h2]
  · rw [h1]
    show (updateOrderStatus (updateFirstOrder orders bid (applyBrokerStatus ib now))
      bv now bid).1 = some (applyBrokerStatus ib now o)
    rw [h2]
  · rw [h1]
    show (updateOrderStatus (updateFirstOrder orders bid (applyBrokerStatus ib now))
      bv now2 bid).1 =
      some { o with
        status := "FILLED", filledAt := some now2,
        filledPrice := some ib.avgFillPrice, filledQuantity := some ib.filled }
    rw [h3]
    simp [applyBrokerStatus, hf]

/-- Demo fixture: one pending order with broker id "42". -/
def orderDemoOrders : List OrderRec :=
  [⟨1, some "42", "PENDING", none, none, none, none⟩]

/-- Demo fixture: the broker reports order "42" as filled at 101. -/
def orderDemoView : String → Option IBOrderStatus :=
  fun bid => if bid = "42" then some ⟨"Filled", 101, 20⟩ else none

/-- C9 witness: the idempotence claim applied to the demo order. -/
theorem claim_C9_witness :
    (updateOrderStatus orderDemoOrders orderDemoView 5 "42").1 =
      some ⟨1, some "42", "FILLED", some 101, some 20, some 5, none⟩ ∧
    (updateOrderStatus (updateOrderStatus orderDemoOrders orderDemoView 5 "42").2
        orderDemoView 5 "42").2 =
      (updateOrderStatus orderDemoOrders orderDemoView 5 "42").2 ∧
    (updateOrderStatus (updateOrderStatus orderDemoOrders orderDemoView 5 "42").2
        orderDemoView 5 "42").1 =
      (updateOrderStatus orderDemoOrders orderDemoView 5 "42").1 ∧
    (updateOrderStatus (updateOrderStatus orderDemoOrders orderDemoView 5 "42").2
        orderDemoView 9 "42").1 =
      some ⟨1, some "42", "FILLED", some 101, some 20, some 9, none⟩ :=
  claim_C9 orderDemoOrders orderDemoView 5 9 "42"
    ⟨1, some "42", "PENDING", none, none, none, none⟩ ⟨"Filled", 101, 20⟩ rfl rfl rfl

/-! ## PositionService repair operations
(`app/services/trading/position_service.py`) -/

/-- The database state visible to the repair operations, with the id the
next created trade receives. -/
structure PosDB where
  stocks : List Stock
  trades : List TradeRec
  nextTradeId : ℕ
  deriving Repr, DecidableEq

/-- `PositionService.recover_extra_position`: refuse non-`EXTRA_AT_BROKER`
discrepancies, look up the stock, re-fetch the broker position, and create
a `recovered` open trade at the broker's quantity and average cost.  On
any error the session is rolled back, so the returned state is the
original one. -/
def recoverExtraPosition (db : PosDB) (broker : List (String × BrokerPos))
    (disc : PositionDiscrepancy) (strategyId : ℕ) :
    Except String TradeRec × PosDB :=
  if disc.discrepancyType ≠ "EXTRA_AT_BROKER" then
    (.error ("Invalid discrepancy type: " ++ disc.discrepancyType ++
      ". Expected EXTRA_AT_BROKER"), db)
  else
    match findStockBySymbol db.stocks disc.symbol with
    | none => (.error ("Stock not found: " ++ disc.symbol), db)
    | some stock =>
        match lookupPos broker disc.symbol with
        | none => (.error ("KeyError: " ++ disc.symbol), db)
        | some brokerData =>
            let trade : TradeRec :=
              ⟨db.nextTradeId, strategyId, stock.id, "OPEN", none, brokerData.avgCost,
                disc.brokerQuantity, none, none, true⟩
            (.ok trade,
              { db with trades := db.trades ++ [trade], nextTradeId := db.nextTradeId + 1 })

/-- `PositionService.recover_missing_position`: refuse
non-`MISSING_AT_BROKER` discrepancies, look up the stock, and force-close
every open trade of that stock with zero exit price and P&L, flagged
`recovered`. -/
def recoverMissingPosition (db : PosDB) (disc : PositionDiscrepancy) (now : ℕ) :
    Except String Unit × PosDB :=
  if disc.discrepancyType ≠ "MISSING_AT_BROKER" then
    (.error ("Invalid discrepancy type: " ++ disc.discrepancyType ++
      ". Expected MISSING_AT_BROKER"), db)
  else
    match findStockBySymbol db.stocks disc.symbol with
    | none => (.error ("Stock not found: " ++ disc.symbol), db)
    | some stock =>
        (.ok (),
          { db with trades := db.trades.map (fun t =>
              if t.stockId == stock.id && t.status == "OPEN" then
                { t with
                  status := "CLOSED", exitTime := some now, exitPrice := some 0,
                  profitLoss := some 0, recovered := true }
              else t) })

/-- C10: calling a repair operation on a discrepancy of the wrong kind
raises `ValueError` before touching any state: the trade table (indeed the
whole database state) is exactly the pre-call one and the result is the
`Invalid discrepancy type` error. -/
theorem claim_C10 :
    (∀ (db : PosDB) (broker : List (String × BrokerPos)) (disc : PositionDiscrepancy)
        (strategyId : ℕ), disc.discrepancyType ≠ "EXTRA_AT_BROKER" →
      (recoverExtraPosition db broker disc strategyId).2 = db ∧
      (recoverExtraPosition db broker disc strategyId).1 =
        .error ("Invalid discrepancy type: " ++ disc.discrepancyType ++
          ". Expected EXTRA_AT_BROKER")) ∧
    (∀ (db : PosDB) (disc : PositionDiscrepancy) (now : ℕ),
        disc.discrepancyType ≠ "MISSING_AT_BROKER" →
      (recoverMissingPosition db disc now).2 = db ∧
      (recoverMissingPosition db disc now).1 =
        .error ("Invalid discrepancy type: " ++ disc.discrepancyType ++
          ". Expected MISSING_AT_BROKER")) := by
  constructor
  · intro db broker disc strategyId h
    unfold recoverExtraPosition
    rw [if_pos h]
    exact ⟨rfl, rfl⟩
  · intro db disc now h
    unfold recoverMissingPosition
    rw [if_pos h]
    exact ⟨rfl, rfl⟩

/-- Demo fixture: a database with one open AAPL trade. -/
def posDemoDB : PosDB :=
  ⟨[⟨7, "AAPL"⟩], [⟨11, 1, 7, "OPEN", none, 100, 10, none, none, false⟩], 100⟩

/-- C10 witness: a `MISSING_AT_BROKER` discrepancy fed to
`recover_extra_position` and an `EXTRA_AT_BROKER` one fed to
`recover_missing_position` are both refused with the state unchanged. -/
theorem claim_C10_witness :
    ((recoverExtraPosition posDemoDB [] ⟨"AAPL", 0, 10, 1000, "MISSING_AT_BROKER"⟩ 1).2 =
        posDemoDB ∧
      (recoverExtraPosition posDemoDB [] ⟨"AAPL", 0, 10, 1000, "MISSING_AT_BROKER"⟩ 1).1 =
        .error "Invalid discrepancy type: MISSING_AT_BROKER. Expected EXTRA_AT_BROKER") ∧
    ((recoverMissingPosition posDemoDB ⟨"AAPL", 10, 0, 1000, "EXTRA_AT_BROKER"⟩ 5).2 =
        posDemoDB ∧
      (recoverMissingPosition posDemoDB ⟨"AAPL", 10, 0, 1000, "EXTRA_AT_BROKER"⟩ 5).1 =
        .error "Invalid discrepancy type: EXTRA_AT_BROKER. Expected MISSING_AT_BROKER") :=
  ⟨claim_C10.1 posDemoDB [] ⟨"AAPL", 0, 10, 1000, "MISSING_AT_BROKER"⟩ 1 (by decide),
    claim_C10.2 posDemoDB ⟨"AAPL", 10, 0, 1000, "EXTRA_AT_BROKER"⟩ 5 (by decide)⟩

/-! ## RecoveryService (`app/services/monitoring/recovery.py`) -/

/-- `SystemState` row (the heartbeat record). -/
structure SystemStateRec where
  lastUpdated : ℕ
  systemStatus : String
  deriving Repr, DecidableEq

/-- `RecoveryEvent` row. -/
structure RecoveryEventRec where
  recoveryType : String
  success : Bool
  message : String
  discrepanciesFound : ℕ
  deriving Repr, DecidableEq

/-- The database state visible to `RecoveryService`. -/
structure MonitorDB where
  systemState : Option SystemStateRec
  recoveryEvents : List RecoveryEventRec
  deriving Repr, DecidableEq

/-- Failure-injection environment for one `run_recovery` call: which
steps raise, whether the broker client is present, what reconciliation
reports, and the wall clock. -/
structure RecoveryEnv where
  ibkrAvailable : Bool
  reconcileOutcome : Except String (ℕ × ℚ)
  loadStateFails : Bool
  commitStateFails : Bool
  eventWriteFails : Bool
  now : ℕ
  deriving Repr

/-- The outer `except` handler of `run_recovery`: try to persist a
`RecoveryEvent{success=false}` (a bare inner `except: pass` swallows a
failure of that write) and return `(False, "Recovery failed: ...")` —
the exception is not re-raised. -/
def recoveryFailureReturn (env : RecoveryEnv) (db : MonitorDB) (msg : String) :
    Except String ((Bool × String) × MonitorDB) :=
  let db2 :=
    if env.eventWriteFails then db
    else { db with recoveryEvents := db.recoveryEvents ++
      [⟨"STARTUP", false, "Recovery failed: " ++ msg, 0⟩] }
  .ok ((false, "Recovery failed: " ++ msg), db2)

/-- `RecoveryService.run_recovery`.  Step 2's reconciliation has its own
inner handler, so its failure only downgrades the discrepancy data; the
steps that can reach the outer handler are the state load, the system
state commit, and the success-event write.  A `.error` result would model
an exception escaping to the caller — the outer handler makes that
impossible. -/
def runRecovery (env : RecoveryEnv) (db : MonitorDB) :
    Except String ((Bool × String) × MonitorDB) :=
  if env.loadStateFails then recoveryFailureReturn env db "load state failed"
  else
    let discrepancyCount : ℕ :=
      match env.ibkrAvailable, env.reconcileOutcome with
      | true, .ok (n, _) => n
      | _, _ => 0
    if env.commitStateFails then recoveryFailureReturn env db "commit failed"
    else
      let db4 : MonitorDB := { db with systemState := some ⟨env.now, "RUNNING"⟩ }
      if env.eventWriteFails then recoveryFailureReturn env db4 "event write failed"
      else
        let db5 : MonitorDB := { db4 with recoveryEvents := db4.recoveryEvents ++
          [⟨"STARTUP", true, "Recovery completed successfully", discrepancyCount⟩] }
        .ok ((true, "Recovery completed successfully"), db5)

/-- C5 (counterexample): when the system-state commit raises, the
exception is not re-raised to the caller: `run_recovery` returns a
`(False, "Recovery failed: ...")` result (an `.ok`, not an `.error`),
with the failed `RecoveryEvent` appended. -/
theorem claim_C5_counterexample :
    runRecovery ⟨true, .ok (0, 0), false, true, false, 17⟩ ⟨none, []⟩ =
      .ok ((false, "Recovery failed: commit failed"),
        ⟨none, [⟨"STARTUP", false, "Recovery failed: commit failed", 0⟩]⟩) ∧
    (runRecovery ⟨true, .ok (0, 0), false, true, false, 17⟩ ⟨none, []⟩).isOk = true := by
  exact ⟨rfl, rfl⟩

/-- C5 (amended): `run_recovery` never lets an exception escape (the
result is always `.ok`); when a step fails, a `RecoveryEvent` with
`success = false` is still persisted — unless that very write fails, in
which case it is silently skipped — and the caller receives a
`(False, "Recovery failed: ...")` result instead of a re-raised
exception. -/
theorem claim_C5 (env : RecoveryEnv) (db : MonitorDB) :
    (runRecovery env db).isOk = true ∧
    (env.loadStateFails = true → env.eventWriteFails = false →
      runRecovery env db =
        .ok ((false, "Recovery failed: load state failed"),
          { db with recoveryEvents := db.recoveryEvents ++
            [⟨"STARTUP", false, "Recovery failed: load state failed", 0⟩] })) ∧
    (env.loadStateFails = false → env.commitStateFails = true → env.eventWriteFails = false →
      runRecovery env db =
        .ok ((false, "Recovery failed: commit failed"),
          { db with recoveryEvents := db.recoveryEvents ++
            [⟨"STARTUP", false, "Recovery failed: commit failed", 0⟩] })) ∧
    (env.loadStateFails = false → env.commitStateFails = false → env.eventWriteFails = true →
      runRecovery env db =
        .ok ((false, "Recovery failed: event write failed"),
          { db with systemState := some ⟨env.now, "RUNNING"⟩ })) := by
  refine ⟨?_, ?_, ?_, ?_⟩
  · unfold runRecovery recoveryFailureReturn
    split_ifs <;> rfl
  · intro h1 h2
    simp [runRecovery, recoveryFailureReturn, h1, h2]
  · intro h1 h2 h3
    simp [runRecovery, recoveryFailureReturn, h1, h2, h3]
  · intro h1 h2 h3
    simp [runRecovery, recoveryFailureReturn, h1, h2, h3]

/-- C5 witness: the amended claim applied to a call whose system-state
commit fails. -/
theorem claim_C5_witness :
    (runRecovery ⟨true, .ok (0, 0), false, true, false, 17⟩ ⟨none, []⟩).isOk = true ∧
    runRecovery ⟨true, .ok (0, 0), false, true, false, 17⟩ ⟨none, []⟩ =
      .ok ((false, "Recovery failed: commit failed"),
        { systemState := none,
          recoveryEvents := [⟨"STARTUP", false, "Recovery failed: commit failed", 0⟩] }) :=
  ⟨(claim_C5 ⟨true, .ok (0, 0), false, true, false, 17⟩ ⟨none, []⟩).1,
    (claim_C5 ⟨true, .ok (0, 0), false, true, false, 17⟩ ⟨none, []⟩).2.2.1 rfl rfl rfl⟩

/-! ## ExecutionEngine (`app/services/trading/execution_engine.py`) -/

/-- `SignalType` -/
inductive SignalType
  | buy
  | sell
  | hold
  deriving Repr, DecidableEq

/-- `TradingSignal`: the fields `execute_signal` reads. -/
structure TradingSignal where
  signalType : SignalType
  symbol : String
  deriving Repr, DecidableEq

/-- `ExecutionResult` (records referenced by id). -/
structure ExecutionResult where
  success : Bool
  tradeId : Option ℕ
  marketOrderId : Option ℕ
  stopLossOrderId : Option ℕ
  takeProfitOrderId : Option ℕ
  errorMessage : Option String
  deriving Repr, DecidableEq

/-- The database state visible to `ExecutionEngine`. -/
structure ExecDB where
  strategies : List Strategy
  stocks : List Stock
  trades : List TradeRec
  orders : List OrderRec
  nextOrderId : ℕ
  nextTradeId : ℕ
  deriving Repr

/-- The broker-side environment of one `execute_signal` call: the market
data quote, the strategy's protective percentages, the account values,
the broker order id assigned at placement, and the broker's order report
at each 1-second poll tick. -/
structure ExecEnv where
  currentPrice : Option ℚ
  stopLossPct : ℚ
  takeProfitPct : ℚ
  account : AccountEnv
  brokerOrderId : ℕ
  pollStatus : ℕ → Option IBOrderStatus
  now : ℕ

/-- `OrderService.submit_market_order`: persist a local record with
`status = PENDING` and the broker-assigned order id. -/
def submitMarketOrder (db : ExecDB) (env : ExecEnv) : OrderRec × ExecDB :=
  let o : OrderRec :=
    ⟨db.nextOrderId, some (toString env.brokerOrderId), "PENDING", none, none, none, none⟩
  (o, { db with orders := db.orders ++ [o], nextOrderId := db.nextOrderId + 1 })

/-- The poll loop of `ExecutionEngine._wait_for_fill`: at each tick, scan
the broker's trades for the order; on `Filled`, set the local record to
`FILLED` with the fill data and return the fill price; on timeout return
`None` without touching the record. -/
def waitForFillAux (env : ExecEnv) (brokerId : String) (db : ExecDB) :
    ℕ → ℕ → Option ℚ × ExecDB
  | _, 0 => (none, db)
  | tick, remaining + 1 =>
      match env.pollStatus tick with
      | some ib =>
          if ib.status = "Filled" then
            (some ib.avgFillPrice,
              { db with orders := updateFirstOrder db.orders brokerId (fun o =>
                  { o with
                    status := "FILLED", filledAt := some env.now,
                    filledPrice := some ib.avgFillPrice,
                    filledQuantity := some ib.filled }) })
          else waitForFillAux env brokerId db (tick + 1) remaining
      | none => waitForFillAux env brokerId db (tick + 1) remaining

/-- `ExecutionEngine._wait_for_fill` with its 30-second default. -/
def waitForFill (env : ExecEnv) (db : ExecDB) (order : OrderRec)
    (timeoutSeconds : ℕ) : Option ℚ × ExecDB :=
  match order.brokerOrderId with
  | none => (none, db)
  | some brokerId => waitForFillAux env brokerId db 1 timeoutSeconds

/-- `ExecutionEngine.execute_signal`. -/
def executeSignal (db : ExecDB) (env : ExecEnv) (signal : TradingSignal)
    (strategyId : ℕ) : ExecutionResult × ExecDB :=
  if signal.signalType ≠ SignalType.buy then
    (⟨false, none, none, none, none, some "Signal type not supported for execution"⟩, db)
  else
    match findStockBySymbol db.stocks signal.symbol with
    | none =>
        (⟨false, none, none, none, none,
          some ("Stock not found in database: " ++ signal.symbol)⟩, db)
    | some stock =>
        match env.currentPrice with
        | none =>
            (⟨false, none, none, none, none,
              some ("Unable to get current price for " ++ signal.symbol)⟩, db)
        | some currentPrice =>
            let stopLossPrice := currentPrice * (1 - env.stopLossPct)
            let _takeProfitPrice := currentPrice * (1 + env.takeProfitPct)
            match calculatePositionSize currentPrice stopLossPrice
                env.account.portfolioValue with
            | .error e =>
                (⟨false, none, none, none, none,
                  some ("Trade execution failed: " ++ e)⟩, db)
            | .ok positionSize =>
                let validation := validateTrade ⟨db.strategies, db.stocks, db.trades⟩
                  env.account strategyId signal.symbol positionSize.positionValue
                if validation.1.isValid = false then
                  (⟨false, none, none, none, none,
                    some ("Risk validation failed: " ++ validation.1.reason.getD "")⟩, db)
                else
                  let submitted := submitMarketOrder db env
                  match waitForFill env submitted.2 submitted.1 30 with
                  | (none, db2) =>
                      (⟨false, none, some submitted.1.id, none, none,
                        some "Market order did not fill in expected time"⟩, db2)
                  | (some fillPrice, db2) =>
                      let trade : TradeRec :=
                        ⟨db2.nextTradeId, strategyId, stock.id, "OPEN", none, fillPrice,
                          positionSize.quantity, none, none, false⟩
                      let db3 : ExecDB := { db2 with
                        trades := db2.trades ++ [trade]
                        nextTradeId := db2.nextTradeId + 1
                        orders := updateFirstOrder db2.orders (toString env.brokerOrderId)
                          (fun o => { o with tradeId := some trade.id }) }
                      let stopOrder : OrderRec :=
                        ⟨db3.nextOrderId, some (toString (env.brokerOrderId + 1)), "PENDING",
                          none, none, none, some trade.id⟩
                      let db4 : ExecDB := { db3 with
                        orders := db3.orders ++ [stopOrder]
                        nextOrderId := db3.nextOrderId + 1 }
                      let takeProfitOrder : OrderRec :=
                        ⟨db4.nextOrderId, some (toString (env.brokerOrderId + 2)), "PENDING",
                          none, none, none, some trade.id⟩
                      let db5 : ExecDB := { db4 with
                        orders := db4.orders ++ [takeProfitOrder]
                        nextOrderId := db4.nextOrderId + 1 }
                      (⟨true, some trade.id, some submitted.1.id, some stopOrder.id,
                        some takeProfitOrder.id, none⟩, db5)

lemma waitForFillAux_none (env : ExecEnv) (brokerId : String) (db : ExecDB)
    (hp : ∀ t ib, env.pollStatus t = some ib → ib.status ≠ "Filled") :
    ∀ remaining tick, waitForFillAux env brokerId db tick remaining = (none, db) := by
  intro remaining
  induction remaining with
  | zero => intro tick; rfl
  | succ n ih =>
      intro tick
      simp only [waitForFillAux]
      cases hps : env.pollStatus tick with
      | none => exact ih (tick + 1)
      | some ib =>
          dsimp only
          rw [if_neg (hp tick ib hps)]
          exact ih (tick + 1)

lemma find?_append_none {α : Type} (p : α → Bool) (l1 l2 : List α)
    (h : l1.find? p = none) : (l1 ++ l2).find? p = l2.find? p := by
  induction l1 with
  | nil => rfl
  | cons a rest ih =>
      cases hpa : p a with
      | true =>
          rw [List.find?_cons_of_pos _ hpa] at h
          exact Option.noConfusion h
      | false =>
          rw [List.find?_cons_of_neg _ (by simp [hpa])] at h
          rw [List.cons_append, List.find?_cons_of_neg _ (by simp [hpa])]
          exact ih h

/-- C7: when the fill poll times out without the broker ever reporting
`Filled`, `execute_signal` returns a failure result that still references
the submitted market order; the local order record keeps status
`PENDING` (not cancelled, no trade link) and no `Trade` record is
created. -/
theorem claim_C7 (db : ExecDB) (env : ExecEnv) (signal : TradingSignal) (strategyId : ℕ)
    (stock : Stock) (p : ℚ) (r : SizeResult)
    (hsig : signal.signalType = SignalType.buy)
    (hstock : findStockBySymbol db.stocks signal.symbol = some stock)
    (hprice : env.currentPrice = some p)
    (hsize : calculatePositionSize p (p * (1 - env.stopLossPct))
      env.account.portfolioValue = .ok r)
    (hvalid : (validateTrade ⟨db.strategies, db.stocks, db.trades⟩ env.account strategyId
      signal.symbol r.positionValue).1.isValid = true)
    (hfresh : findOrderByBrokerId db.orders (toString env.brokerOrderId) = none)
    (hp : ∀ t ib, env.pollStatus t = some ib → ib.status ≠ "Filled") :
    (executeSignal db env signal strategyId).1.success = false ∧
    (executeSignal db env signal strategyId).1.marketOrderId = some db.nextOrderId ∧
    (executeSignal db env signal strategyId).1.errorMessage =
      some "Market order did not fill in expected time" ∧
    findOrderByBrokerId (executeSignal db env signal strategyId).2.orders
      (toString env.brokerOrderId) =
      some ⟨db.nextOrderId, some (toString env.brokerOrderId), "PENDING",
        none, none, none, none⟩ ∧
    (executeSignal db env signal strategyId).2.trades = db.trades := by
  have hw := waitForFillAux_none env (toString env.brokerOrderId)
    { db with
      orders := db.orders ++
        [⟨db.nextOrderId, some (toString env.brokerOrderId), "PENDING",
          none, none, none, none⟩]
      nextOrderId := db.nextOrderId + 1 } hp 30 1
  have hkey : executeSignal db env signal strategyId =
      (⟨false, none, some db.nextOrderId, none, none,
        some "Market order did not fill in expected time"⟩,
        { db with
          orders := db.orders ++
            [⟨db.nextOrderId, some (toString env.brokerOrderId), "PENDING",
              none, none, none, none⟩]
          nextOrderId := db.nextOrderId + 1 }) := by
    simp only [executeSignal, hsig, hstock, hprice, hsize, hvalid, submitMarketOrder,
      waitForFill, hw]
    simp
  refine ⟨?_, ?_, ?_, ?_, ?_⟩
  · rw [hkey]
  · rw [hkey]
  · rw [hkey]
  · rw [hkey]
    show findOrderByBrokerId (db.orders ++
      [⟨db.nextOrderId, some (toString env.brokerOrderId), "PENDING",
        none, none, none, none⟩]) (toString env.brokerOrderId) =
      some ⟨db.nextOrderId, some (toString env.brokerOrderId), "PENDING",
        none, none, none, none⟩
    unfold findOrderByBrokerId
    rw [find?_append_none _ db.orders _ hfresh]
    simp [List.find?]
  · rw [hkey]

/-- Demo fixture: one active strategy, one stock, empty trade and order
tables. -/
def execDemoDB : ExecDB :=
  ⟨[⟨1, "alpha", "active", 0⟩], [⟨7, "AAPL"⟩], [], [], 50, 200⟩

/-- Demo fixture: AAPL quoted at 100, 5% stop / 10% take-profit, ample
account, broker order id 42, and a broker that only ever reports
`Submitted`. -/
def execDemoEnv : ExecEnv :=
  ⟨some 100, 5 / 100, 10 / 100, ⟨10000, 10000⟩, 42,
    fun _ => some ⟨"Submitted", 0, 0⟩, 99⟩

/-- The sizing result for the demo call (40 raw shares capped to 20). -/
def execDemoSizing : SizeResult :=
  ⟨20, 2000, 100, 1, 20, true, some "MAX_POSITION_SIZE", 100, 95, 10000⟩

/-- C7 witness: the timeout claim applied to the demo call. -/
theorem claim_C7_witness :
    (executeSignal execDemoDB execDemoEnv ⟨SignalType.buy, "AAPL"⟩ 1).1.success = false ∧
    (executeSignal execDemoDB execDemoEnv ⟨SignalType.buy, "AAPL"⟩ 1).1.marketOrderId =
      some execDemoDB.nextOrderId ∧
    (executeSignal execDemoDB execDemoEnv ⟨SignalType.buy, "AAPL"⟩ 1).1.errorMessage =
      some "Market order did not fill in expected time" ∧
    findOrderByBrokerId
      (executeSignal execDemoDB execDemoEnv ⟨SignalType.buy, "AAPL"⟩ 1).2.orders
      (toString execDemoEnv.brokerOrderId) =
      some ⟨execDemoDB.nextOrderId, some (toString execDemoEnv.brokerOrderId), "PENDING",
        none, none, none, none⟩ ∧
    (executeSignal execDemoDB execDemoEnv ⟨SignalType.buy, "AAPL"⟩ 1).2.trades =
      execDemoDB.trades :=
  claim_C7 execDemoDB execDemoEnv ⟨SignalType.buy, "AAPL"⟩ 1 ⟨7, "AAPL"⟩ 100 execDemoSizing
    rfl rfl rfl
    (by norm_num [execDemoEnv, execDemoSizing, calculatePositionSize, pyInt,
      RISK_PERCENT, MAX_POSITION_PERCENT])
    (by
      norm_num [execDemoDB, execDemoEnv, execDemoSizing, validateTrade, firstFailure,
        checkDailyLossLimit, checkDuplicatePosition, checkPositionSizeLimit,
        checkSufficientCapital, checkPortfolioAllocation, findStockBySymbol, findOpenTrade,
        getStrategyAllocation, MAX_POSITION_PERCENT, MAX_STRATEGY_ALLOCATION_PERCENT,
        List.find?]
      decide)
    rfl
    (by
      intro t ib h
      simp only [execDemoEnv] at h
      injection h with h2
      subst h2
      decide)

end DayTrader

